import Mathlib

/-!
Shallow embedding of the arena battle simulation
(src/overlay/game/SceneBattle.ts, src/overlay/game/Fighter.ts,
src/overlay/game/unitDefs.ts, src/overlay/game/Projectile.ts,
the SpatialHash in src/overlay/ui/NameplateFactory.ts and the
ObjectPool in src/unnamed/part_003), with theorems checking the
specification claims against it.

JavaScript numbers are modelled as rationals (ℚ); `Math.floor` is `Int.floor`
and `Math.ceil` is `Int.ceil`.  `Math.sqrt s <= r` (with `0 ≤ s`) is encoded
by the equivalent executable condition `0 ≤ r ∧ s ≤ r ^ 2`.  Calls to
`Math.random()` are externalised as explicit parameters.  Purely visual code
(textures, animations, tweens, HUD) has no observable simulation state and is
not modelled.
-/

namespace AGT

/-! ## Simulation clock — SceneBattle.update (SceneBattle.ts lines 368-385) -/

/-- `FIXED_DT = 16.67` (SceneBattle.ts line 72). -/
def FIXED_DT : ℚ := 1667 / 100

/-- `MAX_STEPS = 5` (SceneBattle.ts line 74). -/
def MAX_STEPS : ℕ := 5

/-- The capped fixed-step loop:
`while (accumulator >= FIXED_DT && steps < MAX_STEPS) { fixedUpdate; accumulator -= FIXED_DT; steps++ }`.
The step cap is the structural fuel; returns the remaining accumulator and the
number of fixed ticks executed.  `fixedUpdate` does not touch the accumulator,
so it is elided here. -/
def runSteps : ℕ → ℚ → ℚ × ℕ
  | 0, a => (a, 0)
  | n + 1, a =>
    if FIXED_DT ≤ a then
      let r := runSteps n (a - FIXED_DT)
      (r.1, r.2 + 1)
    else (a, 0)

/-- `SceneBattle.update` restricted to its accumulator arithmetic
(BATTLE phase): add the real-time delta, run the capped loop, then clamp:
`if (accumulator > FIXED_DT * MAX_STEPS) accumulator = FIXED_DT`. -/
def clockUpdate (accumulator delta : ℚ) : ℚ × ℕ :=
  let r := runSteps MAX_STEPS (accumulator + delta)
  (if FIXED_DT * (MAX_STEPS : ℚ) < r.1 then FIXED_DT else r.1, r.2)

theorem runSteps_steps_le (n : ℕ) (a : ℚ) : (runSteps n a).2 ≤ n := by
  induction n generalizing a with
  | zero => simp [runSteps]
  | succ n ih =>
    simp only [runSteps]
    split
    · exact Nat.succ_le_succ (ih _)
    · exact Nat.zero_le _

/-- Claim C2: in BATTLE phase each outer update call executes at most
MAX_STEPS (5) fixed ticks; whenever the post-loop accumulator exceeds
`FIXED_DT * MAX_STEPS` it is reset to exactly `FIXED_DT`; hence after every
call the accumulator is at most `FIXED_DT * MAX_STEPS`. -/
theorem clockUpdate_capped_and_bounded (accumulator delta : ℚ) :
    (clockUpdate accumulator delta).2 ≤ MAX_STEPS ∧
    (clockUpdate accumulator delta).1 ≤ FIXED_DT * (MAX_STEPS : ℚ) ∧
    ((FIXED_DT * (MAX_STEPS : ℚ) <
        (runSteps MAX_STEPS (accumulator + delta)).1) →
      (clockUpdate accumulator delta).1 = FIXED_DT) := by
  unfold clockUpdate
  refine ⟨runSteps_steps_le _ _, ?_, ?_⟩
  · dsimp only
    by_cases h : FIXED_DT * (MAX_STEPS : ℚ) < (runSteps MAX_STEPS (accumulator + delta)).1
    · rw [if_pos h]
      unfold FIXED_DT MAX_STEPS
      norm_num
    · rw [if_neg h]
      exact le_of_not_lt h
  · intro h
    dsimp only
    rw [if_pos h]

/-- Witness for C2 at a concrete input: starting accumulator 0 and a huge
real-time delta of 10000 ms still runs at most 5 ticks and leaves the
accumulator bounded; the backlog condition fires, so the accumulator ends at
exactly one step. -/
theorem clockUpdate_capped_and_bounded_witness :
    (clockUpdate 0 10000).2 ≤ MAX_STEPS ∧
    (clockUpdate 0 10000).1 ≤ FIXED_DT * (MAX_STEPS : ℚ) ∧
    (clockUpdate 0 10000).1 = FIXED_DT := by
  have h := clockUpdate_capped_and_bounded 0 10000
  have hcond : FIXED_DT * (MAX_STEPS : ℚ) < (runSteps MAX_STEPS (0 + 10000)).1 := by
    norm_num [runSteps, FIXED_DT, MAX_STEPS]
  exact ⟨h.1, h.2.1, h.2.2 hcond⟩

/-! ## Static data model — unitDefs.ts -/

/-- `Team = 'A' | 'B'` (unitDefs.ts line 4). -/
inductive Team
  | A
  | B
  deriving DecidableEq, Repr

/-- `Role = 'melee' | 'ranged' | 'magic' | 'healer'` (unitDefs.ts line 29). -/
inductive Role
  | melee
  | ranged
  | magic
  | healer
  deriving DecidableEq, Repr

/-- The `side` field of a unit definition (unitDefs.ts line 33). -/
inductive Side
  | player
  | enemy
  | either
  deriving DecidableEq, Repr

/-- The `stats` record of a unit definition (unitDefs.ts lines 35-41).
The source field `def` is a reserved word in Lean and is named `defense`. -/
structure UnitStats where
  maxHP : ℚ
  atk : ℚ
  defense : ℚ
  range : ℚ
  speed : ℚ

/-- The optional `timings` record of a unit definition (unitDefs.ts lines 46-51). -/
structure UnitTimings where
  windupMs : Option ℚ
  recoverMs : Option ℚ
  attackCooldownMs : Option ℚ
  deathDespawnMs : Option (ℚ × ℚ)

/-- The optional `projectile` record of a unit definition (unitDefs.ts lines 56-61). -/
structure ProjectileParams where
  texture : Option String
  speed : Option ℚ
  radius : Option ℚ
  aoeRadius : Option ℚ

/-- `UnitDef` (unitDefs.ts lines 31-62). -/
structure UnitDef where
  displayName : String
  side : Side
  role : Role
  stats : UnitStats
  minRange : Option ℚ
  timings : Option UnitTimings
  canBlock : Option Bool
  blockReductionPct : Option ℚ
  projectile : Option ProjectileParams

/-- Shorthand for a fully-populated timings record, as every catalog entry
writes all four timing fields. -/
def mkTimings (w r cd lo hi : ℚ) : UnitTimings :=
  { windupMs := some w, recoverMs := some r, attackCooldownMs := some cd,
    deathDespawnMs := some (lo, hi) }

/-- Shorthand for a catalog entry with no optional extras. -/
def mkDef (nm : String) (sd : Side) (rl : Role) (st : UnitStats)
    (tm : UnitTimings) : UnitDef :=
  { displayName := nm, side := sd, role := rl, stats := st, minRange := none,
    timings := some tm, canBlock := none, blockReductionPct := none,
    projectile := none }

/-- `UNIT_DEFS` (unitDefs.ts lines 65-197), as a lookup from the runtime kind
string (the record key) to the definition; a kind not in the catalog maps to
`none`, matching the `undefined` a JavaScript record lookup yields. -/
def UNIT_DEFS : String → Option UnitDef
  | "soldier" => some (mkDef "Soldier" .player .melee
      { maxHP := 110, atk := 12, defense := 3, range := 90, speed := 0.75 }
      (mkTimings 220 180 900 1000 2200))
  | "swordsman" => some (mkDef "Swordsman" .player .melee
      { maxHP := 105, atk := 14, defense := 3, range := 95, speed := 0.80 }
      (mkTimings 210 170 850 1000 2200))
  | "knight" => some { mkDef "Knight" .player .melee
      { maxHP := 140, atk := 16, defense := 6, range := 96, speed := 0.72 }
      (mkTimings 240 200 950 1200 2500) with
      canBlock := some true, blockReductionPct := some 0.7 }
  | "knight_templar" => some { mkDef "KnightTemplar" .player .melee
      { maxHP := 160, atk := 20, defense := 7, range := 98, speed := 0.72 }
      (mkTimings 250 220 950 1200 2600) with
      canBlock := some true, blockReductionPct := some 0.75 }
  | "armored_axeman" => some (mkDef "Armored Axeman" .player .melee
      { maxHP := 150, atk := 22, defense := 5, range := 92, speed := 0.68 }
      (mkTimings 270 250 1050 1200 2600))
  | "lancer" => some (mkDef "Lancer" .player .melee
      { maxHP := 115, atk := 16, defense := 3, range := 120, speed := 0.86 }
      (mkTimings 220 160 900 1000 2200))
  | "archer" => some { mkDef "Archer" .player .ranged
      { maxHP := 90, atk := 14, defense := 2, range := 220, speed := 0.72 }
      (mkTimings 220 100 900 900 2000) with
      projectile := some { texture := some "arrow", speed := some 520,
                           radius := some 10, aoeRadius := none } }
  | "wizard" => some { mkDef "Wizard" .player .magic
      { maxHP := 88, atk := 18, defense := 2, range := 300, speed := 0.70 }
      (mkTimings 280 160 1150 900 2000) with
      minRange := some 200,
      projectile := some { texture := some "magic", speed := some 480,
                           radius := some 16, aoeRadius := some 42 } }
  | "priest" => some { mkDef "Priest" .player .healer
      { maxHP := 92, atk := 0, defense := 2, range := 250, speed := 0.70 }
      (mkTimings 260 160 1200 900 2000) with
      minRange := some 150,
      projectile := some { texture := some "heal", speed := some 1,
                           radius := some 15, aoeRadius := none } }
  | "werewolf" => some (mkDef "Werewolf" .player .melee
      { maxHP := 170, atk := 26, defense := 5, range := 95, speed := 1.0 }
      (mkTimings 180 140 800 1200 2600))
  | "werebear" => some (mkDef "Werebear" .player .melee
      { maxHP := 210, atk := 28, defense := 7, range := 100, speed := 0.62 }
      (mkTimings 300 240 1200 1400 2800))
  | "orc" => some (mkDef "Orc" .enemy .melee
      { maxHP := 100, atk := 12, defense := 2, range := 90, speed := 0.76 }
      (mkTimings 220 180 950 800 2000))
  | "armored_orc" => some (mkDef "ArmoredOrc" .enemy .melee
      { maxHP := 140, atk := 16, defense := 4, range := 92, speed := 0.70 }
      (mkTimings 240 200 980 900 2200))
  | "elite_orc" => some (mkDef "EliteOrc" .enemy .melee
      { maxHP := 160, atk := 20, defense := 5, range := 94, speed := 0.78 }
      (mkTimings 230 180 900 900 2200))
  | "orc_rider" => some (mkDef "Orc Rider" .enemy .melee
      { maxHP := 170, atk := 22, defense := 5, range := 96, speed := 1.05 }
      (mkTimings 220 160 850 900 2200))
  | "skeleton" => some (mkDef "Skeleton" .enemy .melee
      { maxHP := 80, atk := 10, defense := 1, range := 88, speed := 0.78 }
      (mkTimings 210 150 900 700 1800))
  | "armored_skeleton" => some (mkDef "ArmoredSkeleton" .enemy .melee
      { maxHP := 120, atk := 14, defense := 3, range := 90, speed := 0.74 }
      (mkTimings 220 170 930 800 2000))
  | "greatsword_skeleton" => some (mkDef "GreatswordSkeleton" .enemy .melee
      { maxHP := 130, atk := 18, defense := 2, range := 98, speed := 0.72 }
      (mkTimings 260 220 1100 900 2200))
  | "skeleton_archer" => some { mkDef "SkeletonArcher" .enemy .ranged
      { maxHP := 85, atk := 12, defense := 1, range := 210, speed := 0.72 }
      (mkTimings 230 120 950 800 2000) with
      projectile := some { texture := some "arrow", speed := some 500,
                           radius := some 10, aoeRadius := none } }
  | "slime" => some (mkDef "Slime" .enemy .melee
      { maxHP := 60, atk := 8, defense := 0, range := 80, speed := 0.65 }
      (mkTimings 260 200 1050 600 1600))
  | _ => none

/-- `defn.timings?.windupMs ?? 220` (Fighter.ts line 468). -/
def windupMsOf (d : UnitDef) : ℚ := ((d.timings.bind UnitTimings.windupMs).getD 220)

/-- `defn.timings?.recoverMs ?? 180` (Fighter.ts line 398). -/
def recoverMsOf (d : UnitDef) : ℚ := ((d.timings.bind UnitTimings.recoverMs).getD 180)

/-- `defn.timings?.attackCooldownMs ?? 900` (SceneBattle.ts line 568). -/
def attackCooldownMsOf (d : UnitDef) : ℚ :=
  ((d.timings.bind UnitTimings.attackCooldownMs).getD 900)

/-- `f.defn.timings?.deathDespawnMs?.[0] ?? 1000` (SceneBattle.ts line 712). -/
def deathDespawnLoOf (d : UnitDef) : ℚ :=
  (((d.timings.bind UnitTimings.deathDespawnMs).map Prod.fst).getD 1000)

/-! ## Fighter — Fighter.ts (first, pooled variant; it matches the line
numbers the claims cite).  Sprite/animation/nameplate work is visual only and
is not modelled.  The `__lastHitBy` expando property written by SceneBattle is
the field `lastHitBy`; `_dead`/`_pooled` are `dead`/`pooled`. -/

/-- `FighterState` (Fighter.ts lines 4-10). -/
inductive FState
  | idle
  | chase
  | windup
  | recover
  | block
  | dead
  deriving DecidableEq, Repr

/-- The mutable per-fighter state (Fighter.ts lines 12-100). -/
structure Fighter where
  id : String
  name : String
  team : Team
  kind : String
  defn : UnitDef
  level : ℚ
  maxHP : ℚ
  hp : ℚ
  atk : ℚ
  defense : ℚ
  range : ℚ
  speed : ℚ
  x : ℚ
  y : ℚ
  vx : ℚ
  vy : ℚ
  facing : ℤ
  state : FState
  target : Option String
  attackCdMs : ℚ
  windupMs : ℚ
  recoverMs : ℚ
  staggerMs : ℚ
  aiCdMs : ℚ
  blockCdMs : ℚ
  canBlock : Bool
  blockReductionPct : ℚ
  blockDurationMs : ℚ
  lastHitBy : Option String
  dead : Bool
  pooled : Bool

/-- The `UnitDef` a freshly constructed Fighter holds before `init` runs:
the constructor writes `this.defn = {} as UnitDef` (Fighter.ts line 96), an
empty object; any numeric field read from it would be `undefined`.  It is
always overwritten by `init` before the fighter is used, so the zero record
here is never observed by the modelled operations. -/
def emptyUnitDef : UnitDef :=
  { displayName := "", side := .player, role := .melee,
    stats := { maxHP := 0, atk := 0, defense := 0, range := 0, speed := 0 },
    minRange := none, timings := none, canBlock := none,
    blockReductionPct := none, projectile := none }

/-- A Fighter as built by `new Fighter(scene)`: the class field initialisers
(Fighter.ts lines 13-100). -/
def Fighter.new : Fighter :=
  { id := "", name := "", team := .A, kind := "soldier", defn := emptyUnitDef,
    level := 1, maxHP := 100, hp := 100, atk := 12, defense := 3, range := 120,
    speed := 0.75, x := 0, y := 0, vx := 0, vy := 0, facing := 1,
    state := .idle, target := none, attackCdMs := 0, windupMs := 0,
    recoverMs := 0, staggerMs := 0, aiCdMs := 0, blockCdMs := 0,
    canBlock := false, blockReductionPct := 0.7, blockDurationMs := 260,
    lastHitBy := none, dead := false, pooled := false }

/-- `Fighter.init` (Fighter.ts lines 103-173).  `aiJitter` stands for
`Math.floor(Math.random() * 80)`.  Note that `init` does NOT reset `level`,
`canBlock`, `blockReductionPct`, `blockDurationMs` or the `__lastHitBy`
expando — those keep whatever the previous pool occupant left. -/
def Fighter.init (f : Fighter) (x y : ℚ) (id name : String) (team : Team)
    (kind : String) (defn : UnitDef) (aiJitter : ℚ) : Fighter :=
  { f with
    x := x, y := y, id := id, name := name, team := team, kind := kind,
    defn := defn,
    state := .idle, target := none, facing := 1, vx := 0, vy := 0,
    dead := false, pooled := false,
    maxHP := defn.stats.maxHP, hp := defn.stats.maxHP, atk := defn.stats.atk,
    defense := defn.stats.defense, range := defn.stats.range,
    speed := defn.stats.speed,
    attackCdMs := 0, windupMs := 0, recoverMs := 0, staggerMs := 0,
    blockCdMs := 0, aiCdMs := 80 + aiJitter }

/-- `Fighter.reset` (Fighter.ts lines 176-193): pool hook; marks the fighter
pooled and tears down UI (visual only). -/
def Fighter.reset (f : Fighter) : Fighter := { f with pooled := true }

/-- `Fighter.enter` (Fighter.ts lines 459-475). -/
def Fighter.enter (f : Fighter) (s : FState) : Fighter :=
  if f.dead then f
  else
    let f1 := { f with state := s }
    match s with
    | .windup => { f1 with windupMs := windupMsOf f.defn }
    | .block => { f1 with blockCdMs := f.blockDurationMs }
    | _ => f1

/-- `Fighter.die` (Fighter.ts lines 513-518). -/
def Fighter.die (f : Fighter) : Fighter :=
  if f.dead then f else { f with dead := true, state := .dead }

/-- `Fighter.tryBeginBlock` (Fighter.ts lines 477-481); returns the updated
fighter and whether the block began. -/
def Fighter.tryBeginBlock (f : Fighter) : Fighter × Bool :=
  if f.canBlock = false ∨ 0 < f.blockCdMs ∨ f.state = .block then (f, false)
  else (f.enter .block, true)

/-- `Fighter.heal` (Fighter.ts lines 506-511). -/
def Fighter.heal (f : Fighter) (amount : ℚ) : Fighter :=
  if f.dead ∨ amount ≤ 0 then f
  else
    let newHP := min f.maxHP (f.hp + amount)
    if newHP = f.hp then f else { f with hp := newHP }

/-- `Fighter.takeDamage` (Fighter.ts lines 483-504).  `roll` stands for the
outcome of `Math.random() < 0.28`. -/
def Fighter.takeDamage (f : Fighter) (dmg : ℚ) (roll : Bool) : Fighter :=
  if f.dead then f
  else
    let attempt : Fighter × Bool :=
      if f.canBlock = true ∧ f.blockCdMs ≤ 0 ∧ roll = true then f.tryBeginBlock
      else (f, false)
    let f1 := attempt.1
    let dmg1 : ℚ :=
      if attempt.2 then ((⌊dmg * (1 - f1.blockReductionPct)⌋ : ℤ) : ℚ) else dmg
    let real : ℤ := max 1 ⌊dmg1 - f1.defense⌋
    let newHP : ℚ := max 0 (f1.hp - (real : ℚ))
    if newHP = f1.hp then f1
    else
      let f2 := { f1 with hp := newHP, staggerMs := max f1.staggerMs 120 }
      if f2.hp ≤ 0 then f2.die else f2

/-- The counter-decrement block of `Fighter.updateFixed` (Fighter.ts lines
386-392): each cooldown is decremented only while positive. -/
def tickCounters (f : Fighter) (dtMs : ℚ) : Fighter :=
  { f with
    attackCdMs := if 0 < f.attackCdMs then f.attackCdMs - dtMs else f.attackCdMs,
    windupMs := if 0 < f.windupMs then f.windupMs - dtMs else f.windupMs,
    recoverMs := if 0 < f.recoverMs then f.recoverMs - dtMs else f.recoverMs,
    staggerMs := if 0 < f.staggerMs then f.staggerMs - dtMs else f.staggerMs,
    aiCdMs := if 0 < f.aiCdMs then f.aiCdMs - dtMs else f.aiCdMs,
    blockCdMs := if 0 < f.blockCdMs then f.blockCdMs - dtMs else f.blockCdMs }

/-- First automatic state transition (Fighter.ts lines 396-399): when the
windup timer has elapsed and the fighter is still in `windup`, it enters
`recover` — and nothing else happens: no damage is applied here. -/
def transWindup (f : Fighter) : Fighter :=
  if f.windupMs ≤ (0 : ℚ) ∧ f.state = .windup then
    { f with state := .recover, recoverMs := recoverMsOf f.defn }
  else f

/-- Second automatic state transition (Fighter.ts lines 400-402). -/
def transRecover (f : Fighter) : Fighter :=
  if f.recoverMs ≤ (0 : ℚ) ∧ f.state = .recover then { f with state := .idle }
  else f

/-- Third automatic state transition (Fighter.ts lines 403-405). -/
def transBlock (f : Fighter) : Fighter :=
  if f.blockCdMs ≤ (0 : ℚ) ∧ f.state = .block then { f with state := .idle }
  else f

/-- Velocity damping and integration (Fighter.ts lines 408-411). -/
def tickPhysics (f : Fighter) (dtMs : ℚ) : Fighter :=
  let g := { f with vx := f.vx * 0.92, vy := f.vy * 0.92 }
  { g with x := g.x + g.vx * (dtMs / (16.67 : ℚ)),
           y := g.y + g.vy * (dtMs / (16.67 : ℚ)) }

/-- Facing update (Fighter.ts lines 414-416); `targetX` externalises
`this.target?.x` (a reference in the source). -/
def tickFacing (f : Fighter) (targetX : Option ℚ) : Fighter :=
  match targetX with
  | some tx => { f with facing := if tx < f.x then -1 else 1 }
  | none => f

/-- `Fighter.updateFixed` (Fighter.ts lines 383-424): no-op when pooled or
dead, otherwise counter decrements, then the three automatic state
transitions, then velocity damping/integration and facing, in source order.
The throttled nameplate refresh is visual only. -/
def Fighter.updateFixed (f : Fighter) (dtMs : ℚ) (targetX : Option ℚ) : Fighter :=
  if f.pooled ∨ f.dead then f
  else
    tickFacing
      (tickPhysics (transBlock (transRecover (transWindup (tickCounters f dtMs)))) dtMs)
      targetX

/-! ## Combat resolution claims -/

/-- The exact condition under which `takeDamage` engages the reactive block
(Fighter.ts lines 487-491): the outer guard `canBlock && blockCdMs <= 0 &&
Math.random() < 0.28` together with `tryBeginBlock` succeeding (which, under
the outer guard, only further requires the state not to be `block`). -/
def blockEngages (f : Fighter) (roll : Bool) : Prop :=
  f.canBlock = true ∧ f.blockCdMs ≤ 0 ∧ roll = true ∧ f.state ≠ FState.block

theorem takeDamage_attempt_of_not_blockEngages (f : Fighter) (roll : Bool)
    (hnb : ¬ blockEngages f roll) :
    (if f.canBlock = true ∧ f.blockCdMs ≤ 0 ∧ roll = true then f.tryBeginBlock
     else (f, false)) = (f, false) := by
  by_cases hG : f.canBlock = true ∧ f.blockCdMs ≤ 0 ∧ roll = true
  · rw [if_pos hG]
    unfold Fighter.tryBeginBlock
    have hstate : f.state = FState.block := by
      by_contra hs
      exact hnb ⟨hG.1, hG.2.1, hG.2.2, hs⟩
    rw [if_pos (Or.inr (Or.inr hstate))]
  · rw [if_neg hG]

/-- Claim C3: on a living, non-blocking fighter, `takeDamage` reduces hp by
`effective = max(1, floor(D − F))`, which is strictly positive, and the
resulting hp is clamped at 0 from below. -/
theorem takeDamage_effective_damage (f : Fighter) (D : ℚ) (roll : Bool)
    (halive : f.dead = false) (hhp : 0 < f.hp)
    (hnb : ¬ blockEngages f roll) :
    (f.takeDamage D roll).hp =
      max 0 (f.hp - ((max 1 ⌊D - f.defense⌋ : ℤ) : ℚ)) ∧
    (0 : ℤ) < max 1 ⌊D - f.defense⌋ ∧
    0 ≤ (f.takeDamage D roll).hp := by
  have hreal1 : (1 : ℤ) ≤ max 1 ⌊D - f.defense⌋ := le_max_left _ _
  have hrealQ : (1 : ℚ) ≤ ((max 1 ⌊D - f.defense⌋ : ℤ) : ℚ) := by exact_mod_cast hreal1
  have hlt : max 0 (f.hp - ((max 1 ⌊D - f.defense⌋ : ℤ) : ℚ)) < f.hp :=
    max_lt hhp (by linarith)
  have hhp_eq : (f.takeDamage D roll).hp =
      max 0 (f.hp - ((max 1 ⌊D - f.defense⌋ : ℤ) : ℚ)) := by
    unfold Fighter.takeDamage
    rw [if_neg (by simp [halive])]
    dsimp only
    rw [takeDamage_attempt_of_not_blockEngages f roll hnb]
    simp only [Bool.false_eq_true, if_false]
    rw [if_neg (ne_of_lt hlt)]
    split
    · unfold Fighter.die
      rw [if_neg (by simp [halive])]
    · rfl
  refine ⟨hhp_eq, lt_of_lt_of_le one_pos hreal1, ?_⟩
  rw [hhp_eq]
  exact le_max_left _ _

/-- The enemy of the §8 spec scenario: 60 hp, defense 0, not block-capable
(built over a freshly constructed fighter). -/
def sampleVictim : Fighter :=
  { Fighter.new with maxHP := 60, hp := 60, defense := 0 }

/-- Witness for C3: an unblocked hit of raw damage 12 on the 60-hp, 0-defense
victim lands exactly `max(1, floor(12 − 0)) = 12` damage, leaving 48 hp. -/
theorem takeDamage_effective_damage_witness :
    ((sampleVictim.takeDamage 12 false).hp =
        max 0 (sampleVictim.hp - ((max 1 ⌊(12 : ℚ) - sampleVictim.defense⌋ : ℤ) : ℚ)) ∧
      (0 : ℤ) < max 1 ⌊(12 : ℚ) - sampleVictim.defense⌋ ∧
      0 ≤ (sampleVictim.takeDamage 12 false).hp) ∧
    (sampleVictim.takeDamage 12 false).hp = 48 := by
  have h := takeDamage_effective_damage sampleVictim 12 false rfl
    (by norm_num [sampleVictim, Fighter.new])
    (by
      intro hb
      exact Bool.false_ne_true hb.2.2.1)
  refine ⟨h, ?_⟩
  rw [h.1]
  norm_num [sampleVictim, Fighter.new]

/-- The melee branch of `SceneBattle.tryAttack` (SceneBattle.ts lines 525-528)
together with the unconditional cooldown reset at lines 568-569: the attacker
enters `windup`, the target is tagged `__lastHitBy = fighter.id`, and
`attackCdMs` is reset to `baseCd + Math.floor(Math.random() * 400 - 180)`
(`cdJitter` stands for the floored jitter term; `defn` at the call site is
`fighter.defn`).  No damage is applied here — the source comment reads
"Damage will be applied when windup completes". -/
def tryAttackMelee (fighter target : Fighter) (cdJitter : ℤ) : Fighter × Fighter :=
  let f1 := fighter.enter .windup
  let t1 := { target with lastHitBy := some fighter.id }
  ({ f1 with attackCdMs := attackCooldownMsOf fighter.defn + (cdJitter : ℚ) }, t1)

theorem tickFacing_hp (f : Fighter) (tx : Option ℚ) : (tickFacing f tx).hp = f.hp := by
  unfold tickFacing
  cases tx <;> rfl

theorem tickFacing_state (f : Fighter) (tx : Option ℚ) :
    (tickFacing f tx).state = f.state := by
  unfold tickFacing
  cases tx <;> rfl

theorem transWindup_hp (f : Fighter) : (transWindup f).hp = f.hp := by
  unfold transWindup
  split <;> rfl

theorem transRecover_hp (f : Fighter) : (transRecover f).hp = f.hp := by
  unfold transRecover
  split <;> rfl

theorem transBlock_hp (f : Fighter) : (transBlock f).hp = f.hp := by
  unfold transBlock
  split <;> rfl

theorem tickPhysics_hp (f : Fighter) (dt : ℚ) : (tickPhysics f dt).hp = f.hp := rfl

theorem tickPhysics_state (f : Fighter) (dt : ℚ) :
    (tickPhysics f dt).state = f.state := rfl

theorem tickCounters_hp (f : Fighter) (dt : ℚ) : (tickCounters f dt).hp = f.hp := rfl

theorem updateFixed_hp_unchanged (g : Fighter) (dt : ℚ) (tx : Option ℚ) :
    (g.updateFixed dt tx).hp = g.hp := by
  unfold Fighter.updateFixed
  split
  · rfl
  · rw [tickFacing_hp, tickPhysics_hp, transBlock_hp, transRecover_hp,
      transWindup_hp, tickCounters_hp]

theorem updateFixed_windup_to_recover (g : Fighter) (dt : ℚ) (tx : Option ℚ)
    (hs : g.state = FState.windup) (hd : g.dead = false) (hpool : g.pooled = false)
    (hw : g.windupMs ≤ dt) (hr : 0 < recoverMsOf g.defn) :
    (g.updateFixed dt tx).state = FState.recover := by
  unfold Fighter.updateFixed
  rw [if_neg (by simp [hd, hpool])]
  rw [tickFacing_state, tickPhysics_state]
  have h1 : (tickCounters g dt).windupMs ≤ 0 := by
    show (if 0 < g.windupMs then g.windupMs - dt else g.windupMs) ≤ 0
    split_ifs with h
    · linarith
    · linarith [not_lt.mp h]
  have h2 : transWindup (tickCounters g dt) =
      { tickCounters g dt with state := .recover,
                               recoverMs := recoverMsOf g.defn } := by
    unfold transWindup
    rw [if_pos ⟨h1, hs⟩]
    rfl
  rw [h2]
  unfold transRecover
  rw [if_neg (fun h => absurd h.1 (not_le.mpr hr))]
  unfold transBlock
  rw [if_neg (fun h => FState.noConfusion h.2)]

theorem tryAttackMelee_eq (a t : Fighter) (cdJ : ℤ) (ha : a.dead = false) :
    tryAttackMelee a t cdJ =
      ({ a with state := .windup, windupMs := windupMsOf a.defn,
                attackCdMs := attackCooldownMsOf a.defn + (cdJ : ℚ) },
       { t with lastHitBy := some a.id }) := by
  unfold tryAttackMelee Fighter.enter
  rw [if_neg (by simp [ha])]

/-- Claim C1 (the code contradicts it): per the spec — and the source's own
comment "Damage will be applied when windup completes" — a melee attacker
that entered `windup` with a locked living target should apply melee damage
`attacker.atk + attacker.level*2` (before defense) when the windup timer
completes, then enter `recover`.  In the code the windup-completion
transition (Fighter.ts lines 396-399) only moves the attacker to `recover`:
`Fighter.updateFixed` never modifies any fighter's hp and the melee branch of
`tryAttack` applies no damage either, so the target's hp is unchanged through
the entire engagement. -/
theorem melee_windup_completes_without_damage
    (a t : Fighter) (cdJ : ℤ) (dt : ℚ) (tx : Option ℚ)
    (ha : a.dead = false) (hpool : a.pooled = false)
    (hdt : windupMsOf a.defn ≤ dt) (hrec : 0 < recoverMsOf a.defn) :
    ((tryAttackMelee a t cdJ).1.state = FState.windup) ∧
    ((tryAttackMelee a t cdJ).2.hp = t.hp) ∧
    (((tryAttackMelee a t cdJ).1.updateFixed dt tx).state = FState.recover) ∧
    (∀ (g : Fighter) (dt2 : ℚ) (tx2 : Option ℚ),
      (g.updateFixed dt2 tx2).hp = g.hp) := by
  rw [tryAttackMelee_eq a t cdJ ha]
  refine ⟨rfl, rfl, ?_, fun g dt2 tx2 => updateFixed_hp_unchanged g dt2 tx2⟩
  exact updateFixed_windup_to_recover _ dt tx rfl ha hpool hdt hrec

/-- The soldier definition from the catalog (player melee, atk 12). -/
def soldierD : UnitDef := (UNIT_DEFS "soldier").getD emptyUnitDef

/-- The orc definition from the catalog (enemy melee, 100 hp, def 2). -/
def orcD : UnitDef := (UNIT_DEFS "orc").getD emptyUnitDef

/-- A freshly spawned team-A soldier. -/
def sampleSoldier : Fighter :=
  Fighter.new.init 380 520 "p1" "You" Team.A "soldier" soldierD 0

/-- A freshly spawned team-B orc. -/
def sampleOrc : Fighter :=
  Fighter.new.init 1540 520 "e1" "Orc" Team.B "orc" orcD 0

/-- Witness for C1 at a concrete failing input: the soldier locks the living
orc (100 hp), enters windup, and 220 ms later (its full windup) transitions
to `recover` with the orc's hp untouched. -/
theorem melee_windup_completes_without_damage_witness :
    ((tryAttackMelee sampleSoldier sampleOrc 0).1.state = FState.windup) ∧
    ((tryAttackMelee sampleSoldier sampleOrc 0).2.hp = sampleOrc.hp) ∧
    (((tryAttackMelee sampleSoldier sampleOrc 0).1.updateFixed 220 none).state
        = FState.recover) ∧
    (∀ (g : Fighter) (dt2 : ℚ) (tx2 : Option ℚ),
      (g.updateFixed dt2 tx2).hp = g.hp) :=
  melee_windup_completes_without_damage sampleSoldier sampleOrc 0 220 none
    rfl rfl
    (by norm_num [sampleSoldier, Fighter.init, Fighter.new, soldierD, UNIT_DEFS,
      windupMsOf, mkDef, mkTimings])
    (by norm_num [sampleSoldier, Fighter.init, Fighter.new, soldierD, UNIT_DEFS,
      recoverMsOf, mkDef, mkTimings])

/-! ## Healer attack — SceneBattle.tryAttack, healer branch -/

/-- Encoding of the JavaScript comparison `Math.sqrt s <= r` without square
roots: for `0 ≤ s` (always the case for a sum of squares) it is equivalent to
`0 ≤ r ∧ s ≤ r ^ 2`. -/
abbrev sqrtLE (s r : ℚ) : Prop := 0 ≤ r ∧ s ≤ r ^ 2

/-- The encoding `sqrtLE` agrees with the real square-root comparison. -/
theorem sqrtLE_iff (s r : ℚ) (hs : 0 ≤ s) :
    sqrtLE s r ↔ Real.sqrt (s : ℝ) ≤ (r : ℝ) := by
  constructor
  · rintro ⟨hr, hsr⟩
    have hrR : (0 : ℝ) ≤ (r : ℝ) := by exact_mod_cast hr
    rw [show ((r : ℝ)) = Real.sqrt ((r : ℝ) ^ 2) from (Real.sqrt_sq hrR).symm]
    exact Real.sqrt_le_sqrt (by exact_mod_cast hsr)
  · intro h
    have hr : (0 : ℝ) ≤ (r : ℝ) := le_trans (Real.sqrt_nonneg _) h
    refine ⟨by exact_mod_cast hr, ?_⟩
    have hsR : (0 : ℝ) ≤ (s : ℝ) := by exact_mod_cast hs
    have h2 : ((s : ℝ)) ≤ (r : ℝ) ^ 2 := by
      calc ((s : ℝ)) = Real.sqrt (s : ℝ) ^ 2 := (Real.sq_sqrt hsR).symm
        _ ≤ (r : ℝ) ^ 2 := by
          exact pow_le_pow_left₀ (Real.sqrt_nonneg _) h 2
    exact_mod_cast h2

/-- The hp fraction `ally.hp / ally.maxHP` (SceneBattle.ts line 546). -/
abbrev hpPct (b : Fighter) : ℚ := b.hp / b.maxHP

/-- One iteration of the healer scan loop (SceneBattle.ts lines 540-551):
skip self and dead allies, otherwise keep the ally when it is within attack
range and strictly improves the worst hp fraction seen so far.  The source
skip `ally === fighter` is reference equality; ids are unique in the live
roster, so it is modelled as id equality. -/
def healerScanStep (f : Fighter) (acc : Option Fighter × ℚ) (ally : Fighter) :
    Option Fighter × ℚ :=
  if ally.id = f.id ∨ ally.dead = true then acc
  else
    if sqrtLE ((ally.x - f.x) ^ 2 + (ally.y - f.y) ^ 2) f.range ∧
        ally.hp / ally.maxHP < acc.2 then
      (some ally, ally.hp / ally.maxHP)
    else acc

/-- The healer ally scan (SceneBattle.ts lines 536-551), starting from
`bestAlly = undefined`, `worstPct = 1`. -/
def healerScan (f : Fighter) (allies : List Fighter) : Option Fighter × ℚ :=
  allies.foldl (healerScanStep f) (none, 1)

/-- A living ally other than the healer itself that is within the healer's
attack range — the candidates the scan considers. -/
def healerCand (f b : Fighter) : Prop :=
  ¬(b.id = f.id ∨ b.dead = true) ∧
    sqrtLE ((b.x - f.x) ^ 2 + (b.y - f.y) ^ 2) f.range

theorem healerScan_foldl_inv (f : Fighter) (l : List Fighter)
    (acc : Option Fighter × ℚ) :
    (l.foldl (healerScanStep f) acc).2 ≤ acc.2 ∧
    (∀ b ∈ l, healerCand f b → (l.foldl (healerScanStep f) acc).2 ≤ hpPct b) ∧
    (l.foldl (healerScanStep f) acc = acc ∨
      ∃ a, a ∈ l ∧ healerCand f a ∧
        (l.foldl (healerScanStep f) acc).1 = some a ∧
        (l.foldl (healerScanStep f) acc).2 = hpPct a ∧
        (l.foldl (healerScanStep f) acc).2 < acc.2) := by
  induction l generalizing acc with
  | nil => simp
  | cons b rest ih =>
    simp only [List.foldl_cons]
    by_cases hskip : b.id = f.id ∨ b.dead = true
    · have hstep : healerScanStep f acc b = acc := by
        unfold healerScanStep
        rw [if_pos hskip]
      rw [hstep]
      obtain ⟨i1, i2, i3⟩ := ih acc
      refine ⟨i1, ?_, ?_⟩
      · intro c hc hcand
        rcases List.mem_cons.mp hc with hcb | hcr
        · exact absurd hskip (hcb ▸ hcand.1)
        · exact i2 c hcr hcand
      · rcases i3 with h | ⟨a, ha, hc, h1, h2, h3⟩
        · exact Or.inl h
        · exact Or.inr ⟨a, List.mem_cons_of_mem _ ha, hc, h1, h2, h3⟩
    · by_cases hguard : sqrtLE ((b.x - f.x) ^ 2 + (b.y - f.y) ^ 2) f.range ∧
          b.hp / b.maxHP < acc.2
      · have hstep : healerScanStep f acc b = (some b, b.hp / b.maxHP) := by
          unfold healerScanStep
          rw [if_neg hskip, if_pos hguard]
        rw [hstep]
        obtain ⟨i1, i2, i3⟩ := ih (some b, b.hp / b.maxHP)
        have hb2 : (some b, b.hp / b.maxHP).2 = hpPct b := rfl
        refine ⟨le_trans i1 (le_of_lt (hb2 ▸ hguard.2)), ?_, ?_⟩
        · intro c hc hcand
          rcases List.mem_cons.mp hc with hcb | hcr
          · exact hcb ▸ i1
          · exact i2 c hcr hcand
        · rcases i3 with h | ⟨a, ha, hc, h1, h2, h3⟩
          · refine Or.inr ⟨b, List.mem_cons_self _ _, ⟨hskip, hguard.1⟩, ?_, ?_, ?_⟩
            · rw [h]
            · rw [h]
            · rw [h]
              exact hguard.2
          · exact Or.inr ⟨a, List.mem_cons_of_mem _ ha, hc, h1, h2,
              lt_trans h3 hguard.2⟩
      · have hstep : healerScanStep f acc b = acc := by
          unfold healerScanStep
          rw [if_neg hskip, if_neg hguard]
        rw [hstep]
        obtain ⟨i1, i2, i3⟩ := ih acc
        refine ⟨i1, ?_, ?_⟩
        · intro c hc hcand
          rcases List.mem_cons.mp hc with hcb | hcr
          · have hnlt : ¬(b.hp / b.maxHP < acc.2) := fun hlt =>
              hguard ⟨(hcb ▸ hcand).2, hlt⟩
            exact hcb ▸ (le_trans i1 (not_lt.mp hnlt))
          · exact i2 c hcr hcand
        · rcases i3 with h | ⟨a, ha, hc, h1, h2, h3⟩
          · exact Or.inl h
          · exact Or.inr ⟨a, List.mem_cons_of_mem _ ha, hc, h1, h2, h3⟩

theorem healerScan_inv (f : Fighter) (allies : List Fighter) :
    (healerScan f allies).2 ≤ 1 ∧
    (∀ b ∈ allies, healerCand f b → (healerScan f allies).2 ≤ hpPct b) ∧
    (healerScan f allies = (none, 1) ∨
      ∃ a, a ∈ allies ∧ healerCand f a ∧
        (healerScan f allies).1 = some a ∧
        (healerScan f allies).2 = hpPct a ∧
        (healerScan f allies).2 < 1) :=
  healerScan_foldl_inv f allies (none, 1)

/-- The healer branch of `SceneBattle.tryAttack` (SceneBattle.ts lines
534-566) plus the unconditional cooldown reset at lines 568-569: scan the
ally-side snapshot; when a wounded ally in range was found
(`bestAlly && worstPct < 1`) the healer enters `windup` and
`bestAlly.heal(16 + fighter.level * 2)` runs immediately, at decision time.
The in-place mutation of the chosen ally is rendered as mapping `heal` over
the roster entry holding it (ids are unique); the returned option reports the
chosen ally (pre-heal) and the heal amount, `none` when no attack happened. -/
def tryAttackHealer (fighter : Fighter) (allies : List Fighter) (cdJitter : ℤ) :
    Fighter × List Fighter × Option (Fighter × ℚ) :=
  match (healerScan fighter allies).1 with
  | some bestAlly =>
    if (healerScan fighter allies).2 < 1 then
      ({ fighter.enter .windup with
          attackCdMs := attackCooldownMsOf fighter.defn + (cdJitter : ℚ) },
       allies.map (fun b =>
         if b.id = bestAlly.id then b.heal (16 + fighter.level * 2) else b),
       some (bestAlly, 16 + fighter.level * 2))
    else ({ fighter with
             attackCdMs := attackCooldownMsOf fighter.defn + (cdJitter : ℚ) },
          allies, none)
  | none => ({ fighter with
                attackCdMs := attackCooldownMsOf fighter.defn + (cdJitter : ℚ) },
             allies, none)

theorem enter_windup_state (f : Fighter) (hd : f.dead = false) :
    (f.enter .windup).state = FState.windup := by
  unfold Fighter.enter
  rw [if_neg (by simp [hd])]

/-- Claim C6: when a healer attacks it selects, among the living allies
within its attack range, one with the lowest hp fraction, which is strictly
below 1; it heals exactly that ally by `16 + level*2` and enters windup;
allies outside attack range are never selected even if more wounded; and if
no ally in range has hp fraction below 1.0, no attack occurs this cycle (no
windup, no heal) — and conversely. -/
theorem healer_heals_lowest_fraction_in_range (f : Fighter)
    (allies : List Fighter) (cdJ : ℤ) (hd : f.dead = false) :
    (∀ a amt, (tryAttackHealer f allies cdJ).2.2 = some (a, amt) →
      a ∈ allies ∧ healerCand f a ∧ hpPct a < 1 ∧ amt = 16 + f.level * 2 ∧
      (∀ b ∈ allies, healerCand f b → hpPct a ≤ hpPct b) ∧
      (tryAttackHealer f allies cdJ).1.state = FState.windup ∧
      (tryAttackHealer f allies cdJ).2.1 =
        allies.map (fun b => if b.id = a.id then b.heal amt else b)) ∧
    ((tryAttackHealer f allies cdJ).2.2 = none →
      ((∀ b ∈ allies, healerCand f b → 1 ≤ hpPct b) ∧
       (tryAttackHealer f allies cdJ).1.state = f.state ∧
       (tryAttackHealer f allies cdJ).2.1 = allies)) ∧
    ((∀ b ∈ allies, healerCand f b → 1 ≤ hpPct b) →
      (tryAttackHealer f allies cdJ).2.2 = none) := by
  obtain ⟨i1, i2, i3⟩ := healerScan_inv f allies
  rcases hbest : (healerScan f allies).1 with _ | a
  · -- no candidate was kept: the scan returned its initial accumulator
    have hseq : healerScan f allies = (none, 1) := by
      rcases i3 with h | ⟨a, _, _, h1, _, _⟩
      · exact h
      · rw [hbest] at h1
        exact absurd h1 (by simp)
    have hr : tryAttackHealer f allies cdJ =
        ({ f with attackCdMs := attackCooldownMsOf f.defn + (cdJ : ℚ) },
         allies, none) := by
      unfold tryAttackHealer
      rw [hbest]
    rw [hr]
    refine ⟨fun a amt h => by simp at h, fun _ => ⟨?_, rfl, rfl⟩, fun _ => rfl⟩
    intro b hb hc
    have := i2 b hb hc
    rw [show (healerScan f allies).2 = 1 from by rw [hseq]] at this
    exact this
  · -- a candidate was kept
    rcases i3 with h | ⟨a0, ha0, hc0, h1, h2, h3⟩
    · rw [h] at hbest
      exact absurd hbest (by simp)
    · have haa : a0 = a := by
        rw [hbest] at h1
        exact (Option.some_inj.mp h1).symm
      subst haa
      have hlt1 : (healerScan f allies).2 < 1 := h3
      have hr : tryAttackHealer f allies cdJ =
          ({ f.enter .windup with
              attackCdMs := attackCooldownMsOf f.defn + (cdJ : ℚ) },
           allies.map (fun b =>
             if b.id = a0.id then b.heal (16 + f.level * 2) else b),
           some (a0, 16 + f.level * 2)) := by
        unfold tryAttackHealer
        rw [hbest]
        dsimp only
        rw [if_pos hlt1]
      rw [hr]
      refine ⟨?_, by simp, ?_⟩
      · intro a1 amt h
        simp only [Option.some_inj, Prod.mk.injEq] at h
        obtain ⟨ha1, hamt⟩ := h
        subst ha1
        subst hamt
        refine ⟨ha0, hc0, h2 ▸ hlt1, rfl, ?_, ?_, rfl⟩
        · intro b hb hc
          exact h2 ▸ i2 b hb hc
        · show (f.enter .windup).state = FState.windup
          exact enter_windup_state f hd
      · intro hall
        exact absurd (hall a0 ha0 hc0) (not_le.mpr (h2 ▸ hlt1))

/-- The priest definition from the catalog (player healer, range 250). -/
def priestD : UnitDef := (UNIT_DEFS "priest").getD emptyUnitDef

/-- The healer of the §8 spec scenario: a freshly spawned priest at the
origin, attack range 250. -/
def sampleHealer : Fighter :=
  Fighter.new.init 0 0 "h" "Priest" Team.A "priest" priestD 0

/-- Ally at distance 100 with hp fraction 0.9. -/
def ally09 : Fighter := { Fighter.new with id := "a1", x := 100, y := 0, hp := 90, maxHP := 100 }

/-- Ally at distance 200 with hp fraction 0.4 — the expected pick. -/
def ally04 : Fighter := { Fighter.new with id := "a2", x := 200, y := 0, hp := 40, maxHP := 100 }

/-- Ally at distance 260 (out of range) with hp fraction 0.1. -/
def ally01 : Fighter := { Fighter.new with id := "a3", x := 260, y := 0, hp := 10, maxHP := 100 }

/-- Witness for C6 on the §8 spec scenario: range 250, allies at distances
100/200/260 with hp fractions 0.9/0.4/0.1 — the healer heals the ally at
distance 200 (lowest fraction within range) by 16 + 1*2 = 18. -/
theorem healer_heals_lowest_fraction_in_range_witness :
    ((tryAttackHealer sampleHealer [ally09, ally04, ally01] 0).2.2 =
      some (ally04, 18)) ∧
    (∀ a amt,
      (tryAttackHealer sampleHealer [ally09, ally04, ally01] 0).2.2 = some (a, amt) →
      a ∈ [ally09, ally04, ally01] ∧ healerCand sampleHealer a ∧ hpPct a < 1 ∧
      amt = 16 + sampleHealer.level * 2 ∧
      (∀ b ∈ [ally09, ally04, ally01], healerCand sampleHealer b → hpPct a ≤ hpPct b) ∧
      (tryAttackHealer sampleHealer [ally09, ally04, ally01] 0).1.state = FState.windup ∧
      (tryAttackHealer sampleHealer [ally09, ally04, ally01] 0).2.1 =
        [ally09, ally04, ally01].map
          (fun b => if b.id = a.id then b.heal amt else b)) := by
  have h := healer_heals_lowest_fraction_in_range sampleHealer
    [ally09, ally04, ally01] 0 rfl
  refine ⟨?_, h.1⟩
  have hs1 : ¬("a1" : String) = "h" := by decide
  have hs2 : ¬("a2" : String) = "h" := by decide
  have hs3 : ¬("a3" : String) = "h" := by decide
  have hscan : healerScan sampleHealer [ally09, ally04, ally01] =
      (some ally04, 2/5) := by
    unfold healerScan healerScanStep
    norm_num [ally09, ally04, ally01, sampleHealer, Fighter.init, Fighter.new,
      priestD, UNIT_DEFS, mkDef, mkTimings, sqrtLE, hs1, hs2, hs3]
  unfold tryAttackHealer
  rw [hscan]
  norm_num [sampleHealer, Fighter.init, Fighter.new]

/-! ## Wave director — SceneBattle.startNextWave / spawnBossForWave
(SceneBattle.ts lines 757-771, 791-795, 887-906) -/

/-- Wave tuning constants (SceneBattle.ts lines 95-107). -/
def BASE_PER_PLAYER : ℤ := 3

def WAVE_BONUS : ℤ := 2

def STAT_HP_SCALE : ℚ := 0.06

def STAT_ATK_SCALE : ℚ := 0.04

def STAT_SPD_SCALE : ℚ := 0.01

def BOSS_EVERY : ℤ := 5

def BOSS_HP_MULT : ℚ := 3.0

def BOSS_ATK_MULT : ℚ := 1.5

def BOSS_SPD_MULT : ℚ := 1.1

/-- The fixed boss-kind list (SceneBattle.ts line 888). -/
def bossKinds : List String :=
  ["elite_orc", "orc_rider", "greatsword_skeleton", "armored_orc"]

/-- `Math.floor(Math.random() * bosses.length)` (SceneBattle.ts line 889)
with `u` the raw `Math.random()` draw. -/
def bossIndex (u : ℚ) : ℤ := ⌊u * 4⌋

/-- The spawn request `spawnBossForWave` passes to `spawnKind`. -/
structure BossSpawnReq where
  kind : String
  name : String
  level : ℤ
  hpScale : ℚ
  atkScale : ℚ
  speedScale : ℚ

/-- `SceneBattle.computeWaveEnemyCount` (lines 791-795); `players` is
`tempAllies.length` and `waveNumber` the already-incremented wave number. -/
def computeWaveEnemyCount (players : ℕ) (waveNumber : ℤ) : ℤ :=
  max 1 (players : ℤ) * BASE_PER_PLAYER + (waveNumber - 1) * WAVE_BONUS

/-- `SceneBattle.spawnBossForWave` (lines 887-906): pick a boss kind at a
random index, compound the normal per-wave scaling with the boss
multipliers, and request one team-B spawn. -/
def spawnBossForWave (wave : ℤ) (u : ℚ) : BossSpawnReq :=
  let kind := bossKinds.getD (bossIndex u).toNat ""
  let baseHp := 1 + STAT_HP_SCALE * ((wave : ℚ) - 1)
  let baseAtk := 1 + STAT_ATK_SCALE * ((wave : ℚ) - 1)
  let baseSpd := 1 + STAT_SPD_SCALE * ((wave : ℚ) - 1)
  { kind := kind,
    name := "BOSS " ++ ((UNIT_DEFS kind).getD emptyUnitDef).displayName,
    level := 2 + ⌊(wave : ℚ) / 2⌋,
    hpScale := baseHp * BOSS_HP_MULT,
    atkScale := baseAtk * BOSS_ATK_MULT,
    speedScale := baseSpd * BOSS_SPD_MULT }

/-- The wave-director state touched by `startNextWave` (SceneBattle.ts lines
88-92); `playersCount` is the `tempAllies.length` read by
`computeWaveEnemyCount`. -/
structure WaveCtx where
  waveNumber : ℤ
  waveActive : Bool
  waveSpawnsRemaining : ℤ
  waveSpawnCdMs : ℚ
  playersCount : ℕ

/-- `SceneBattle.startNextWave` (lines 757-771): no-op while a wave is
active; otherwise increment the wave number, activate, compute the quota,
and on every BOSS_EVERY-th wave spawn exactly one boss and shave 2 off the
remaining quota, floored at 0.  The banner is visual only. -/
def startNextWave (c : WaveCtx) (u : ℚ) : WaveCtx × Option BossSpawnReq :=
  if c.waveActive then (c, none)
  else
    let w := c.waveNumber + 1
    let rem := computeWaveEnemyCount c.playersCount w
    if w % BOSS_EVERY = 0 then
      ({ c with waveNumber := w, waveActive := true,
                waveSpawnsRemaining := max 0 (rem - 2), waveSpawnCdMs := 0 },
       some (spawnBossForWave w u))
    else
      ({ c with waveNumber := w, waveActive := true,
                waveSpawnsRemaining := rem, waveSpawnCdMs := 0 },
       none)

/-- The boss-kind draw is uniform: index k (of the four) is selected exactly
when the raw uniform draw lands in the quarter-length interval
`[k/4, (k+1)/4)`. -/
theorem bossIndex_eq_iff (u : ℚ) (k : ℕ) :
    bossIndex u = (k : ℤ) ↔ ((k : ℚ) / 4 ≤ u ∧ u < ((k : ℚ) + 1) / 4) := by
  unfold bossIndex
  rw [Int.floor_eq_iff]
  constructor
  · rintro ⟨h1, h2⟩
    push_cast at h1 h2 ⊢
    constructor <;> linarith
  · rintro ⟨h1, h2⟩
    push_cast
    constructor <;> linarith

/-- Claim C7: wave w is a boss wave iff w is a multiple of 5; on a boss wave
exactly one boss is spawned, its kind drawn uniformly from the fixed
boss-kind list (each of the four kinds on a quarter-length interval of the
uniform draw), with hp scale ×3.0, attack scale ×1.5 and speed scale ×1.1 on
top of the normal per-wave scaling `1 + S*(w−1)`, and the wave's remaining
quota is reduced by 2 with a floor of 0. -/
theorem boss_wave_every_fifth (c : WaveCtx) (u : ℚ)
    (hact : c.waveActive = false) (hu0 : 0 ≤ u) (hu1 : u < 1) :
    ((startNextWave c u).2.isSome = true ↔ (5 : ℤ) ∣ (c.waveNumber + 1)) ∧
    (∀ b, (startNextWave c u).2 = some b →
      b.kind = bossKinds.getD (bossIndex u).toNat "" ∧
      0 ≤ bossIndex u ∧ bossIndex u < 4 ∧
      (∀ k : ℕ, bossIndex u = (k : ℤ) ↔
        ((k : ℚ) / 4 ≤ u ∧ u < ((k : ℚ) + 1) / 4)) ∧
      b.kind ∈ bossKinds ∧
      b.hpScale = (1 + STAT_HP_SCALE * (((c.waveNumber + 1 : ℤ) : ℚ) - 1)) *
        BOSS_HP_MULT ∧
      b.atkScale = (1 + STAT_ATK_SCALE * (((c.waveNumber + 1 : ℤ) : ℚ) - 1)) *
        BOSS_ATK_MULT ∧
      b.speedScale = (1 + STAT_SPD_SCALE * (((c.waveNumber + 1 : ℤ) : ℚ) - 1)) *
        BOSS_SPD_MULT ∧
      (startNextWave c u).1.waveSpawnsRemaining =
        max 0 (computeWaveEnemyCount c.playersCount (c.waveNumber + 1) - 2)) := by
  have hidx0 : 0 ≤ bossIndex u := Int.floor_nonneg.mpr (by linarith)
  have hidx4 : bossIndex u < 4 := Int.floor_lt.mpr (by push_cast; linarith)
  have hkmem : bossKinds.getD (bossIndex u).toNat "" ∈ bossKinds := by
    set n := (bossIndex u).toNat with hn
    have hn4 : n < 4 := by omega
    interval_cases n <;> decide
  have hmod : ((c.waveNumber + 1) % BOSS_EVERY = 0) ↔ (5 : ℤ) ∣ (c.waveNumber + 1) := by
    unfold BOSS_EVERY
    exact Int.dvd_iff_emod_eq_zero.symm
  unfold startNextWave
  rw [if_neg (by simp [hact])]
  dsimp only
  by_cases hb : (c.waveNumber + 1) % BOSS_EVERY = 0
  · rw [if_pos hb]
    refine ⟨by simpa using hmod.mp hb, ?_⟩
    intro b hbeq
    have hbv : b = spawnBossForWave (c.waveNumber + 1) u := by
      simpa using hbeq.symm
    subst hbv
    exact ⟨rfl, hidx0, hidx4, fun k => bossIndex_eq_iff u k, hkmem,
      rfl, rfl, rfl, rfl⟩
  · rw [if_neg hb]
    refine ⟨?_, fun b hbeq => by simp at hbeq⟩
    simp only [Option.isSome_none]
    constructor
    · intro h
      exact absurd h (by simp)
    · intro h
      exact absurd (hmod.mpr h) hb

/-- Witness for C7: with the last completed wave number 4 (so the new wave
is 5), two players alive, and uniform draw 1/2, a single boss spawn is
produced; the draw lands in the third quarter so the boss is the greatsword
skeleton, and the quota is max(0, (2*3 + 4*2) − 2) = 12. -/
theorem boss_wave_every_fifth_witness :
    (((startNextWave ⟨4, false, 0, 0, 2⟩ (1/2)).2.isSome = true ↔
        (5 : ℤ) ∣ ((4 : ℤ) + 1)) ∧
      (∀ b, (startNextWave ⟨4, false, 0, 0, 2⟩ (1/2)).2 = some b →
        b.kind = bossKinds.getD (bossIndex (1/2)).toNat "" ∧
        0 ≤ bossIndex (1/2) ∧ bossIndex (1/2) < 4 ∧
        (∀ k : ℕ, bossIndex (1/2) = (k : ℤ) ↔
          ((k : ℚ) / 4 ≤ 1/2 ∧ (1/2 : ℚ) < ((k : ℚ) + 1) / 4)) ∧
        b.kind ∈ bossKinds ∧
        b.hpScale = (1 + STAT_HP_SCALE * ((((4 : ℤ) + 1 : ℤ) : ℚ) - 1)) *
          BOSS_HP_MULT ∧
        b.atkScale = (1 + STAT_ATK_SCALE * ((((4 : ℤ) + 1 : ℤ) : ℚ) - 1)) *
          BOSS_ATK_MULT ∧
        b.speedScale = (1 + STAT_SPD_SCALE * ((((4 : ℤ) + 1 : ℤ) : ℚ) - 1)) *
          BOSS_SPD_MULT ∧
        (startNextWave ⟨4, false, 0, 0, 2⟩ (1/2)).1.waveSpawnsRemaining =
          max 0 (computeWaveEnemyCount 2 ((4 : ℤ) + 1) - 2))) ∧
    (startNextWave ⟨4, false, 0, 0, 2⟩ (1/2)).1.waveSpawnsRemaining = 12 ∧
    (spawnBossForWave 5 (1/2)).kind = "greatsword_skeleton" := by
  refine ⟨boss_wave_every_fifth ⟨4, false, 0, 0, 2⟩ (1/2) rfl (by norm_num)
    (by norm_num), ?_, ?_⟩
  · have h5 : ((4 : ℤ) + 1) % BOSS_EVERY = 0 := by decide
    unfold startNextWave
    rw [if_neg (by simp)]
    dsimp only
    rw [if_pos h5]
    unfold computeWaveEnemyCount BASE_PER_PLAYER WAVE_BONUS
    decide
  · unfold spawnBossForWave bossIndex
    norm_num
    rfl

/-! ## Scene state, object pool and spawning — SceneBattle.spawnKind
(SceneBattle.ts lines 797-853), ObjectPool (src/unnamed/part_003) -/

/-- Association-list lookup, modelling `Map.get` (keys are unique). -/
def assocGet {α : Type} : List (String × α) → String → Option α
  | [], _ => none
  | (k2, v) :: rest, k => if k2 = k then some v else assocGet rest k

/-- Association-list update, modelling `Map.set`. -/
def assocSet {α : Type} : List (String × α) → String → α → List (String × α)
  | [], k, v => [(k, v)]
  | (k2, v2) :: rest, k, v =>
    if k2 = k then (k2, v) :: rest else (k2, v2) :: assocSet rest k v

/-- Association-list removal, modelling `Map.delete`. -/
def assocRemove {α : Type} : List (String × α) → String → List (String × α)
  | [], _ => []
  | (k2, v2) :: rest, k => if k2 = k then rest else (k2, v2) :: assocRemove rest k

/-- The SceneBattle state the modelled operations touch: the fighter pool's
free list, the active roster, the id → fighter map, the seen-death marker
set, the daily kill leaderboard, and the despawn callbacks scheduled via
`time.delayedCall` (id and delay).  Projectiles, HUD and wave state are
independent of these claims. -/
structure Scene where
  poolAvailable : List Fighter
  activeFighters : List Fighter
  fighterMap : List (String × Fighter)
  seenDead : List String
  killsToday : List (String × ℕ)
  pendingDespawns : List (String × ℚ)

/-- `ObjectPool.acquire` (src/unnamed/part_003): pop the last free object —
or construct a fresh Fighter when empty — then run the reset hook on it. -/
def poolAcquire (avail : List Fighter) : Fighter × List Fighter :=
  match avail.getLast? with
  | some f => (f.reset, avail.dropLast)
  | none => (Fighter.new.reset, avail)

/-- Spawn options (SceneBattle.ts lines 800-807). -/
structure SpawnOpts where
  id : Option String
  name : Option String
  level : Option ℚ
  hpScale : Option ℚ
  atkScale : Option ℚ
  speedScale : Option ℚ

/-- The random draws one `spawnKind` call consumes: the two floored position
jitters `Math.floor(Math.random()*120 - 60)`, the generated fallback id, and
the AI-timer jitter inside `Fighter.init`. -/
structure SpawnRand where
  posX : ℤ
  posY : ℤ
  freshId : String
  aiJitter : ℚ

/-- `if (opts?.level) fighter.level = opts.level` (SceneBattle.ts line 838).
JavaScript truthiness makes a present-but-zero numeric option falsy, hence
the `¬(· = 0)` guard, here and in the three scale steps below. -/
def applyLevelOpt (f : Fighter) (o : Option ℚ) : Fighter :=
  match o with
  | some lv => if ¬(lv = 0) then { f with level := lv } else f
  | none => f

/-- `if (opts?.hpScale && team === 'B') { maxHP = floor(maxHP * hpScale);
hp = maxHP }` (SceneBattle.ts lines 839-842). -/
def applyHpScaleOpt (f : Fighter) (o : Option ℚ) (team : Team) : Fighter :=
  match o with
  | some sc =>
    if ¬(sc = 0) ∧ team = Team.B then
      { f with maxHP := ((⌊f.maxHP * sc⌋ : ℤ) : ℚ),
               hp := ((⌊f.maxHP * sc⌋ : ℤ) : ℚ) }
    else f
  | none => f

/-- `if (opts?.atkScale && team === 'B') atk = max(1, floor(atk * atkScale))`
(SceneBattle.ts lines 843-845). -/
def applyAtkScaleOpt (f : Fighter) (o : Option ℚ) (team : Team) : Fighter :=
  match o with
  | some sc =>
    if ¬(sc = 0) ∧ team = Team.B then
      { f with atk := ((max 1 ⌊f.atk * sc⌋ : ℤ) : ℚ) }
    else f
  | none => f

/-- `if (opts?.speedScale && team === 'B') speed = speed * speedScale`
(SceneBattle.ts lines 846-848). -/
def applySpeedScaleOpt (f : Fighter) (o : Option ℚ) (team : Team) : Fighter :=
  match o with
  | some sc =>
    if ¬(sc = 0) ∧ team = Team.B then { f with speed := f.speed * sc }
    else f
  | none => f

/-- `SceneBattle.spawnKind` (lines 797-853).  Returns the new state, the
fighter pushed onto the roster (when accepted), and whether the request was
rejected with a non-fatal `console.warn`.  Avatar loading and the HUD update
are visual only. -/
def spawnKind (s : Scene) (team : Team) (kind : String) (opts : SpawnOpts)
    (rnd : SpawnRand) : Scene × Option Fighter × Bool :=
  match UNIT_DEFS kind with
  | none => (s, none, true)
  | some defn =>
    if team = Team.A ∧ defn.side = Side.enemy then (s, none, true)
    else if team = Team.B ∧ defn.side = Side.player then (s, none, true)
    else
      let baseX : ℚ := if team = Team.A then 380 else 1540
      let x : ℚ := baseX + (rnd.posX : ℚ)
      let y : ℚ := 520 + (rnd.posY : ℚ)
      let id := opts.id.getD rnd.freshId
      let nm := opts.name.getD defn.displayName
      let acq := poolAcquire s.poolAvailable
      let f1 := acq.1.init x y id nm team kind defn rnd.aiJitter
      let f5 := applySpeedScaleOpt
        (applyAtkScaleOpt (applyHpScaleOpt (applyLevelOpt f1 opts.level)
          opts.hpScale team) opts.atkScale team) opts.speedScale team
      ({ s with poolAvailable := acq.2,
                activeFighters := s.activeFighters ++ [f5],
                fighterMap := assocSet s.fighterMap id f5 },
       some f5, false)

/-- Claim C8: a spawn request with an unknown unit kind, or with a team/kind
side mismatch (enemy-only kind on team A, or player-only kind on team B), is
rejected with a non-fatal warning and changes no simulation state: the whole
scene state — pool free list, active roster, fighter map and the rest — is
returned unchanged and no fighter is produced. -/
theorem spawnKind_rejects_invalid (s : Scene) (team : Team) (kind : String)
    (opts : SpawnOpts) (rnd : SpawnRand)
    (h : UNIT_DEFS kind = none ∨
      (∃ d, UNIT_DEFS kind = some d ∧
        ((team = Team.A ∧ d.side = Side.enemy) ∨
         (team = Team.B ∧ d.side = Side.player)))) :
    (spawnKind s team kind opts rnd).1 = s ∧
    (spawnKind s team kind opts rnd).2.1 = none ∧
    (spawnKind s team kind opts rnd).2.2 = true := by
  unfold spawnKind
  rcases h with h | ⟨d, hd, hmis⟩
  · rw [h]
    exact ⟨rfl, rfl, rfl⟩
  · rw [hd]
    dsimp only
    rcases hmis with h1 | h2
    · rw [if_pos h1]
      exact ⟨rfl, rfl, rfl⟩
    · by_cases h1 : team = Team.A ∧ d.side = Side.enemy
      · rw [if_pos h1]
        exact ⟨rfl, rfl, rfl⟩
      · rw [if_neg h1, if_pos h2]
        exact ⟨rfl, rfl, rfl⟩

/-- A sample scene with one live soldier on the roster. -/
def sampleScene : Scene :=
  { poolAvailable := [], activeFighters := [sampleSoldier],
    fighterMap := [("p1", sampleSoldier)], seenDead := [], killsToday := [],
    pendingDespawns := [] }

/-- Default (empty) spawn options. -/
def noOpts : SpawnOpts :=
  { id := none, name := none, level := none, hpScale := none, atkScale := none,
    speedScale := none }

/-- A fixed draw for spawn randomness. -/
def rnd0 : SpawnRand := { posX := 0, posY := 0, freshId := "gen1", aiJitter := 0 }

/-- Witness for C8 at concrete inputs: the unknown kind "dragon" and the
enemy-only kind "orc" requested for team A are both rejected with a warning
and leave the scene untouched. -/
theorem spawnKind_rejects_invalid_witness :
    ((spawnKind sampleScene Team.A "dragon" noOpts rnd0).1 = sampleScene ∧
     (spawnKind sampleScene Team.A "dragon" noOpts rnd0).2.1 = none ∧
     (spawnKind sampleScene Team.A "dragon" noOpts rnd0).2.2 = true) ∧
    ((spawnKind sampleScene Team.A "orc" noOpts rnd0).1 = sampleScene ∧
     (spawnKind sampleScene Team.A "orc" noOpts rnd0).2.1 = none ∧
     (spawnKind sampleScene Team.A "orc" noOpts rnd0).2.2 = true) :=
  ⟨spawnKind_rejects_invalid sampleScene Team.A "dragon" noOpts rnd0
      (Or.inl rfl),
   spawnKind_rejects_invalid sampleScene Team.A "orc" noOpts rnd0
      (Or.inr ⟨orcD, rfl, Or.inl ⟨rfl, rfl⟩⟩)⟩

theorem applyLevelOpt_stats (f : Fighter) (o : Option ℚ) :
    (applyLevelOpt f o).maxHP = f.maxHP ∧ (applyLevelOpt f o).hp = f.hp ∧
    (applyLevelOpt f o).atk = f.atk ∧ (applyLevelOpt f o).speed = f.speed := by
  unfold applyLevelOpt
  cases o
  · exact ⟨rfl, rfl, rfl, rfl⟩
  · dsimp only
    split <;> exact ⟨rfl, rfl, rfl, rfl⟩

theorem applyLevelOpt_level (f : Fighter) (lv : ℚ) (h : ¬(lv = 0)) :
    (applyLevelOpt f (some lv)).level = lv := by
  unfold applyLevelOpt
  dsimp only
  rw [if_pos h]

theorem applyHpScaleOpt_teamA (f : Fighter) (o : Option ℚ) :
    applyHpScaleOpt f o Team.A = f := by
  unfold applyHpScaleOpt
  cases o
  · rfl
  · dsimp only
    rw [if_neg (fun h => Team.noConfusion h.2)]

theorem applyAtkScaleOpt_teamA (f : Fighter) (o : Option ℚ) :
    applyAtkScaleOpt f o Team.A = f := by
  unfold applyAtkScaleOpt
  cases o
  · rfl
  · dsimp only
    rw [if_neg (fun h => Team.noConfusion h.2)]

theorem applySpeedScaleOpt_teamA (f : Fighter) (o : Option ℚ) :
    applySpeedScaleOpt f o Team.A = f := by
  unfold applySpeedScaleOpt
  cases o
  · rfl
  · dsimp only
    rw [if_neg (fun h => Team.noConfusion h.2)]

theorem applyHpScaleOpt_keeps (f : Fighter) (o : Option ℚ) (t : Team) :
    (applyHpScaleOpt f o t).atk = f.atk ∧
    (applyHpScaleOpt f o t).speed = f.speed := by
  unfold applyHpScaleOpt
  cases o
  · exact ⟨rfl, rfl⟩
  · dsimp only
    split <;> exact ⟨rfl, rfl⟩

theorem applyAtkScaleOpt_keeps (f : Fighter) (o : Option ℚ) (t : Team) :
    (applyAtkScaleOpt f o t).maxHP = f.maxHP ∧
    (applyAtkScaleOpt f o t).hp = f.hp ∧
    (applyAtkScaleOpt f o t).speed = f.speed := by
  unfold applyAtkScaleOpt
  cases o
  · exact ⟨rfl, rfl, rfl⟩
  · dsimp only
    split <;> exact ⟨rfl, rfl, rfl⟩

theorem applySpeedScaleOpt_keeps (f : Fighter) (o : Option ℚ) (t : Team) :
    (applySpeedScaleOpt f o t).maxHP = f.maxHP ∧
    (applySpeedScaleOpt f o t).hp = f.hp ∧
    (applySpeedScaleOpt f o t).atk = f.atk := by
  unfold applySpeedScaleOpt
  cases o
  · exact ⟨rfl, rfl, rfl⟩
  · dsimp only
    split <;> exact ⟨rfl, rfl, rfl⟩

theorem applyHpScaleOpt_teamB (f : Fighter) (sc : ℚ) (h : ¬(sc = 0)) :
    (applyHpScaleOpt f (some sc) Team.B).maxHP = ((⌊f.maxHP * sc⌋ : ℤ) : ℚ) ∧
    (applyHpScaleOpt f (some sc) Team.B).hp = ((⌊f.maxHP * sc⌋ : ℤ) : ℚ) := by
  unfold applyHpScaleOpt
  dsimp only
  rw [if_pos ⟨h, rfl⟩]
  exact ⟨rfl, rfl⟩

theorem applyAtkScaleOpt_teamB (f : Fighter) (sc : ℚ) (h : ¬(sc = 0)) :
    (applyAtkScaleOpt f (some sc) Team.B).atk =
      ((max 1 ⌊f.atk * sc⌋ : ℤ) : ℚ) := by
  unfold applyAtkScaleOpt
  dsimp only
  rw [if_pos ⟨h, rfl⟩]

theorem applySpeedScaleOpt_teamB (f : Fighter) (sc : ℚ) (h : ¬(sc = 0)) :
    (applySpeedScaleOpt f (some sc) Team.B).speed = f.speed * sc := by
  unfold applySpeedScaleOpt
  dsimp only
  rw [if_pos ⟨h, rfl⟩]

/-- The fighter an accepted `spawnKind` call pushes onto the roster, spelled
out: pool-acquired object re-initialised from the definition, then the four
option steps in source order. -/
def spawnedFighter (s : Scene) (team : Team) (kind : String) (opts : SpawnOpts)
    (rnd : SpawnRand) (d : UnitDef) : Fighter :=
  applySpeedScaleOpt (applyAtkScaleOpt (applyHpScaleOpt (applyLevelOpt
    ((poolAcquire s.poolAvailable).1.init
      ((if team = Team.A then (380 : ℚ) else 1540) + (rnd.posX : ℚ))
      (520 + (rnd.posY : ℚ)) (opts.id.getD rnd.freshId)
      (opts.name.getD d.displayName) team kind d rnd.aiJitter)
    opts.level) opts.hpScale team) opts.atkScale team) opts.speedScale team

theorem spawnKind_accepted (s : Scene) (team : Team) (kind : String)
    (opts : SpawnOpts) (rnd : SpawnRand) (d : UnitDef)
    (hk : UNIT_DEFS kind = some d)
    (h1 : ¬(team = Team.A ∧ d.side = Side.enemy))
    (h2 : ¬(team = Team.B ∧ d.side = Side.player)) :
    (spawnKind s team kind opts rnd).2.1 =
      some (spawnedFighter s team kind opts rnd d) ∧
    (spawnKind s team kind opts rnd).1.activeFighters =
      s.activeFighters ++ [spawnedFighter s team kind opts rnd d] := by
  unfold spawnKind spawnedFighter
  rw [hk]
  dsimp only
  rw [if_neg h1, if_neg h2]
  exact ⟨rfl, rfl⟩

/-- Claim C10: for every `spawnKind` call with team A, the hpScale, atkScale
and speedScale options are silently ignored — the spawned fighter's maxHP,
hp, atk and speed equal the unit definition's base stats regardless of those
options, and only the level option takes effect — while for team B the same
options do rescale the spawned fighter's stats. -/
theorem spawnKind_scales_only_affect_team_B (s : Scene) (kind : String)
    (opts : SpawnOpts) (rnd : SpawnRand) (d : UnitDef)
    (hk : UNIT_DEFS kind = some d) :
    (d.side ≠ Side.enemy →
      ((spawnKind s Team.A kind opts rnd).2.1 =
          some (spawnedFighter s Team.A kind opts rnd d) ∧
       (spawnKind s Team.A kind opts rnd).1.activeFighters =
          s.activeFighters ++ [spawnedFighter s Team.A kind opts rnd d] ∧
       (spawnedFighter s Team.A kind opts rnd d).maxHP = d.stats.maxHP ∧
       (spawnedFighter s Team.A kind opts rnd d).hp = d.stats.maxHP ∧
       (spawnedFighter s Team.A kind opts rnd d).atk = d.stats.atk ∧
       (spawnedFighter s Team.A kind opts rnd d).speed = d.stats.speed ∧
       (∀ lv, opts.level = some lv → ¬(lv = 0) →
         (spawnedFighter s Team.A kind opts rnd d).level = lv))) ∧
    (d.side ≠ Side.player → ∀ hsc asc ssc,
      opts.hpScale = some hsc → ¬(hsc = 0) →
      opts.atkScale = some asc → ¬(asc = 0) →
      opts.speedScale = some ssc → ¬(ssc = 0) →
      ((spawnedFighter s Team.B kind opts rnd d).maxHP =
          ((⌊d.stats.maxHP * hsc⌋ : ℤ) : ℚ) ∧
       (spawnedFighter s Team.B kind opts rnd d).hp =
          ((⌊d.stats.maxHP * hsc⌋ : ℤ) : ℚ) ∧
       (spawnedFighter s Team.B kind opts rnd d).atk =
          ((max 1 ⌊d.stats.atk * asc⌋ : ℤ) : ℚ) ∧
       (spawnedFighter s Team.B kind opts rnd d).speed =
          d.stats.speed * ssc)) := by
  constructor
  · intro hside
    have hacc := spawnKind_accepted s Team.A kind opts rnd d hk
      (fun h => hside h.2) (fun h => Team.noConfusion h.1)
    refine ⟨hacc.1, hacc.2, ?_, ?_, ?_, ?_, ?_⟩
    · unfold spawnedFighter
      rw [applySpeedScaleOpt_teamA, applyAtkScaleOpt_teamA,
        applyHpScaleOpt_teamA, (applyLevelOpt_stats _ _).1]
      rfl
    · unfold spawnedFighter
      rw [applySpeedScaleOpt_teamA, applyAtkScaleOpt_teamA,
        applyHpScaleOpt_teamA, (applyLevelOpt_stats _ _).2.1]
      rfl
    · unfold spawnedFighter
      rw [applySpeedScaleOpt_teamA, applyAtkScaleOpt_teamA,
        applyHpScaleOpt_teamA, (applyLevelOpt_stats _ _).2.2.1]
      rfl
    · unfold spawnedFighter
      rw [applySpeedScaleOpt_teamA, applyAtkScaleOpt_teamA,
        applyHpScaleOpt_teamA, (applyLevelOpt_stats _ _).2.2.2]
      rfl
    · intro lv hlv h0
      unfold spawnedFighter
      rw [applySpeedScaleOpt_teamA, applyAtkScaleOpt_teamA,
        applyHpScaleOpt_teamA, hlv, applyLevelOpt_level _ lv h0]
  · intro _ hsc asc ssc hh h0 ha a0 hs s0
    unfold spawnedFighter
    rw [hh, ha, hs]
    refine ⟨?_, ?_, ?_, ?_⟩
    · rw [(applySpeedScaleOpt_keeps _ _ _).1, (applyAtkScaleOpt_keeps _ _ _).1,
        (applyHpScaleOpt_teamB _ hsc h0).1, (applyLevelOpt_stats _ _).1]
      rfl
    · rw [(applySpeedScaleOpt_keeps _ _ _).2.1, (applyAtkScaleOpt_keeps _ _ _).2.1,
        (applyHpScaleOpt_teamB _ hsc h0).2, (applyLevelOpt_stats _ _).1]
      rfl
    · rw [(applySpeedScaleOpt_keeps _ _ _).2.2, applyAtkScaleOpt_teamB _ asc a0,
        (applyHpScaleOpt_keeps _ _ _).1, (applyLevelOpt_stats _ _).2.2.1]
      rfl
    · rw [applySpeedScaleOpt_teamB _ ssc s0, (applyAtkScaleOpt_keeps _ _ _).2.2,
        (applyHpScaleOpt_keeps _ _ _).2, (applyLevelOpt_stats _ _).2.2.2]
      rfl

/-- Options carrying level 3 and all three scale factors of 2. -/
def optsScaled : SpawnOpts :=
  { id := none, name := none, level := some 3, hpScale := some 2,
    atkScale := some 2, speedScale := some 2 }

/-- Witness for C10: spawning a soldier on team A with hpScale = atkScale =
speedScale = 2 still yields the base stats 110/110/12/0.75 (only level 3
sticks), while an orc on team B with the same options gets maxHP 200 and
atk 24. -/
theorem spawnKind_scales_only_affect_team_B_witness :
    ((spawnedFighter sampleScene Team.A "soldier" optsScaled rnd0 soldierD).maxHP
        = 110 ∧
     (spawnedFighter sampleScene Team.A "soldier" optsScaled rnd0 soldierD).atk
        = 12 ∧
     (spawnedFighter sampleScene Team.A "soldier" optsScaled rnd0 soldierD).speed
        = 0.75 ∧
     (spawnedFighter sampleScene Team.A "soldier" optsScaled rnd0 soldierD).level
        = 3) ∧
    ((spawnedFighter sampleScene Team.B "orc" optsScaled rnd0 orcD).maxHP
        = 200 ∧
     (spawnedFighter sampleScene Team.B "orc" optsScaled rnd0 orcD).atk
        = 24 ∧
     (spawnedFighter sampleScene Team.B "orc" optsScaled rnd0 orcD).speed
        = 1.52) := by
  have hA := (spawnKind_scales_only_affect_team_B sampleScene "soldier"
    optsScaled rnd0 soldierD rfl).1 (by decide)
  have hB := (spawnKind_scales_only_affect_team_B sampleScene "orc"
    optsScaled rnd0 orcD rfl).2 (by decide) 2 2 2 rfl (by norm_num) rfl
    (by norm_num) rfl (by norm_num)
  refine ⟨⟨?_, ?_, ?_, ?_⟩, ?_, ?_, ?_⟩
  · rw [hA.2.2.1]
    norm_num [soldierD, UNIT_DEFS, mkDef]
  · rw [hA.2.2.2.2.1]
    norm_num [soldierD, UNIT_DEFS, mkDef]
  · rw [hA.2.2.2.2.2.1]
    norm_num [soldierD, UNIT_DEFS, mkDef]
  · exact hA.2.2.2.2.2.2 3 rfl (by norm_num)
  · rw [hB.1]
    norm_num [orcD, UNIT_DEFS, mkDef]
  · rw [hB.2.2.1]
    norm_num [orcD, UNIT_DEFS, mkDef]
  · rw [hB.2.2.2]
    norm_num [orcD, UNIT_DEFS, mkDef]

/-! ## Death processing and kill credit — SceneBattle.processDeaths (lines
704-718), creditKillIfAny (959-968), despawnFighter (855-867) -/

/-- `killsToday.set(name, (killsToday.get(name) ?? 0) + 1)`. -/
def bumpCount (m : List (String × ℕ)) (k : String) : List (String × ℕ) :=
  assocSet m k ((assocGet m k).getD 0 + 1)

/-- `SceneBattle.creditKillIfAny` (lines 959-968): read the victim's
`__lastHitBy` tag; only a mapped, team-A killer credits the daily kill
leaderboard, under its display name (or its id, via the
`killer.name || killerId` fallback when the name is empty).  An empty-string
tag is falsy in `if (!killerId)` and counts as absent.  The `__kills`
expando on the killer only feeds its own HUD and is not modelled. -/
def creditKillIfAny (s : Scene) (victim : Fighter) : Scene :=
  match victim.lastHitBy with
  | none => s
  | some killerId =>
    if killerId = "" then s
    else
      match assocGet s.fighterMap killerId with
      | none => s
      | some killer =>
        if ¬(killer.team = Team.A) then s
        else
          let nm := if killer.name = "" then killerId else killer.name
          { s with killsToday := bumpCount s.killsToday nm }

/-- One iteration of the `processDeaths` scan (lines 705-717): a dead
fighter whose id is not yet in `seenDead` is marked, credited, and a despawn
callback is scheduled after `deathDespawnMs?.[0] ?? 1000`. -/
def processDeathsStep (s : Scene) (f : Fighter) : Scene :=
  if f.dead = true ∧ (s.seenDead.contains f.id) = false then
    let s1 := creditKillIfAny { s with seenDead := f.id :: s.seenDead } f
    { s1 with pendingDespawns :=
        s1.pendingDespawns ++ [(f.id, deathDespawnLoOf f.defn)] }
  else s

/-- `SceneBattle.processDeaths` (lines 704-718): scan the roster as it is
when the call starts (the loop body never mutates `activeFighters`). -/
def processDeaths (s : Scene) : Scene :=
  s.activeFighters.foldl processDeathsStep s

/-- Removal of the first roster entry with the given id, modelling
`activeFighters.splice(activeFighters.indexOf(fighter), 1)` — `indexOf` is
reference equality, rendered by the unique id. -/
def removeFirstById : List Fighter → String → List Fighter
  | [], _ => []
  | f :: rest, id => if f.id = id then rest else f :: removeFirstById rest id

/-- `SceneBattle.despawnFighter` (lines 855-867): drop the mapped fighter
from the roster and the map and release it to the pool.  `seenDead` is NOT
touched here or anywhere else but `processDeaths` and the daily reset. -/
def despawnFighter (s : Scene) (id : String) : Scene :=
  match assocGet s.fighterMap id with
  | none => s
  | some f =>
    { s with activeFighters := removeFirstById s.activeFighters id,
             fighterMap := assocRemove s.fighterMap id,
             poolAvailable := s.poolAvailable ++ [f] }

/-- How many despawn callbacks are scheduled for a given id. -/
def countId (l : List (String × ℚ)) (id : String) : ℕ :=
  (l.filter (fun p => p.1 = id)).length

theorem countId_append (a b : List (String × ℚ)) (fid : String) :
    countId (a ++ b) fid = countId a fid + countId b fid := by
  simp [countId, List.filter_append]

theorem creditKillIfAny_keeps (s : Scene) (v : Fighter) :
    (creditKillIfAny s v).pendingDespawns = s.pendingDespawns ∧
    (creditKillIfAny s v).seenDead = s.seenDead ∧
    (creditKillIfAny s v).activeFighters = s.activeFighters := by
  unfold creditKillIfAny
  repeat' split
  all_goals exact ⟨rfl, rfl, rfl⟩

theorem processDeathsStep_other (s : Scene) (g : Fighter) (fid : String)
    (hne : ¬(g.id = fid)) :
    countId (processDeathsStep s g).pendingDespawns fid =
      countId s.pendingDespawns fid ∧
    ((processDeathsStep s g).seenDead.contains fid) =
      (s.seenDead.contains fid) := by
  unfold processDeathsStep
  split
  · have hk := creditKillIfAny_keeps { s with seenDead := g.id :: s.seenDead } g
    constructor
    · show countId ((creditKillIfAny { s with seenDead := g.id :: s.seenDead } g).pendingDespawns
        ++ [(g.id, deathDespawnLoOf g.defn)]) fid = countId s.pendingDespawns fid
      rw [countId_append, hk.1]
      simp [countId, hne]
    · show ((creditKillIfAny { s with seenDead := g.id :: s.seenDead } g).seenDead.contains fid)
        = (s.seenDead.contains fid)
      rw [hk.2.1]
      simp [List.contains_cons]
      intro h
      exact absurd h.symm hne
  · exact ⟨rfl, rfl⟩

theorem processDeathsStep_fires (s : Scene) (f : Fighter)
    (hdead : f.dead = true) (hnew : s.seenDead.contains f.id = false) :
    countId (processDeathsStep s f).pendingDespawns f.id =
      countId s.pendingDespawns f.id + 1 ∧
    ((processDeathsStep s f).seenDead.contains f.id) = true := by
  unfold processDeathsStep
  rw [if_pos ⟨hdead, hnew⟩]
  have hk := creditKillIfAny_keeps { s with seenDead := f.id :: s.seenDead } f
  constructor
  · show countId ((creditKillIfAny { s with seenDead := f.id :: s.seenDead } f).pendingDespawns
      ++ [(f.id, deathDespawnLoOf f.defn)]) f.id = countId s.pendingDespawns f.id + 1
    rw [countId_append, hk.1]
    simp [countId]
  · show ((creditKillIfAny { s with seenDead := f.id :: s.seenDead } f).seenDead.contains f.id)
      = true
    rw [hk.2.1]
    simp [List.contains_cons]

theorem processDeaths_foldl_marked (fid : String) (l : List Fighter) :
    ∀ (s : Scene), s.seenDead.contains fid = true →
    countId (l.foldl processDeathsStep s).pendingDespawns fid =
      countId s.pendingDespawns fid ∧
    ((l.foldl processDeathsStep s).seenDead.contains fid) = true := by
  induction l with
  | nil => exact fun s hm => ⟨rfl, hm⟩
  | cons g rest ih =>
    intro s hm
    simp only [List.foldl_cons]
    by_cases hg : g.id = fid
    · have hskip : processDeathsStep s g = s := by
        unfold processDeathsStep
        rw [if_neg]
        intro h
        rw [hg, hm] at h
        exact absurd h.2 (by decide)
      rw [hskip]
      exact ih s hm
    · obtain ⟨h1, h2⟩ := processDeathsStep_other s g fid hg
      obtain ⟨h3, h4⟩ := ih (processDeathsStep s g) (h2.trans hm)
      exact ⟨h3.trans h1, h4⟩

theorem processDeaths_foldl_other (fid : String) (l : List Fighter) :
    ∀ (s : Scene), (∀ g ∈ l, ¬(g.id = fid)) →
    countId (l.foldl processDeathsStep s).pendingDespawns fid =
      countId s.pendingDespawns fid ∧
    ((l.foldl processDeathsStep s).seenDead.contains fid) =
      (s.seenDead.contains fid) := by
  induction l with
  | nil => exact fun s _ => ⟨rfl, rfl⟩
  | cons g rest ih =>
    intro s hl
    simp only [List.foldl_cons]
    obtain ⟨h1, h2⟩ := processDeathsStep_other s g fid
      (hl g (List.mem_cons_self _ _))
    obtain ⟨h3, h4⟩ := ih (processDeathsStep s g)
      (fun g2 hg2 => hl g2 (List.mem_cons_of_mem _ hg2))
    exact ⟨h3.trans h1, h4.trans h2⟩

theorem despawnFighter_seenDead (s : Scene) (id : String) :
    (despawnFighter s id).seenDead = s.seenDead := by
  unfold despawnFighter
  split <;> rfl

/-- Claim C4 (amended): while a fighter stays dead and un-despawned, the
kill-credit and despawn-scheduling block runs exactly once for it — the
first scan that sees the unmarked dead fighter schedules exactly one despawn
for its id and marks it, and every later scan (here: the immediately
repeated one, but the argument only uses the marker) schedules nothing more
— because the seen-death marker, once set, is never cleared: in particular
`despawnFighter` leaves it in place, so it persists for the rest of the
match rather than only until the fighter despawns. -/
theorem death_processing_once_per_id (s : Scene) (f : Fighter)
    (l1 l2 : List Fighter)
    (hsplit : s.activeFighters = l1 ++ f :: l2)
    (huniq : ∀ g, (g ∈ l1 ∨ g ∈ l2) → ¬(g.id = f.id))
    (hdead : f.dead = true)
    (hnew : s.seenDead.contains f.id = false) :
    countId (processDeaths s).pendingDespawns f.id =
      countId s.pendingDespawns f.id + 1 ∧
    ((processDeaths s).seenDead.contains f.id) = true ∧
    countId (processDeaths (processDeaths s)).pendingDespawns f.id =
      countId s.pendingDespawns f.id + 1 ∧
    (∀ id, (despawnFighter (processDeaths s) id).seenDead =
      (processDeaths s).seenDead) := by
  have hps : processDeaths s =
      l2.foldl processDeathsStep
        (processDeathsStep (l1.foldl processDeathsStep s) f) := by
    unfold processDeaths
    rw [hsplit, List.foldl_append, List.foldl_cons]
  obtain ⟨cA, mA⟩ := processDeaths_foldl_other f.id l1 s
    (fun g hg => huniq g (Or.inl hg))
  obtain ⟨cB, mB⟩ := processDeathsStep_fires (l1.foldl processDeathsStep s) f
    hdead (mA.trans hnew)
  obtain ⟨cC, mC⟩ := processDeaths_foldl_marked f.id l2
    (processDeathsStep (l1.foldl processDeathsStep s) f) mB
  have hcount : countId (processDeaths s).pendingDespawns f.id =
      countId s.pendingDespawns f.id + 1 := by
    rw [hps, cC, cB, cA]
  have hmark : ((processDeaths s).seenDead.contains f.id) = true := by
    rw [hps]
    exact mC
  refine ⟨hcount, hmark, ?_, fun id => despawnFighter_seenDead _ id⟩
  obtain ⟨cD, _⟩ := processDeaths_foldl_marked f.id
    (processDeaths s).activeFighters (processDeaths s) hmark
  calc countId (processDeaths (processDeaths s)).pendingDespawns f.id
      = countId (processDeaths s).pendingDespawns f.id := cD
    _ = countId s.pendingDespawns f.id + 1 := hcount

/-- The killer of the C4 witness: a live team-A fighter named "You". -/
def sampleKiller : Fighter := { Fighter.new with id := "k", name := "You" }

/-- The victim of the C4 witness: a dead team-B fighter last hit by "k". -/
def sampleDeadEnemy : Fighter :=
  { Fighter.new with
    id := "e", team := Team.B, dead := true, state := FState.dead,
    lastHitBy := some "k" }

/-- The C4 witness scene: the killer and the fresh corpse on the roster. -/
def deathScene : Scene :=
  { poolAvailable := [], activeFighters := [sampleKiller, sampleDeadEnemy],
    fighterMap := [("k", sampleKiller), ("e", sampleDeadEnemy)],
    seenDead := [], killsToday := [], pendingDespawns := [] }

/-- Witness for C4 (amended) at a concrete input, plus the concrete credit:
the first scan schedules exactly one despawn for "e", marks it, credits one
kill to "You", and a second scan adds nothing. -/
theorem death_processing_once_per_id_witness :
    (countId (processDeaths deathScene).pendingDespawns sampleDeadEnemy.id =
        countId deathScene.pendingDespawns sampleDeadEnemy.id + 1 ∧
     ((processDeaths deathScene).seenDead.contains sampleDeadEnemy.id) = true ∧
     countId (processDeaths (processDeaths deathScene)).pendingDespawns
         sampleDeadEnemy.id =
       countId deathScene.pendingDespawns sampleDeadEnemy.id + 1 ∧
     (∀ id, (despawnFighter (processDeaths deathScene) id).seenDead =
       (processDeaths deathScene).seenDead)) ∧
    (processDeaths deathScene).killsToday = [("You", 1)] := by
  refine ⟨death_processing_once_per_id deathScene sampleDeadEnemy
    [sampleKiller] [] rfl ?_ rfl rfl, ?_⟩
  · intro g hg
    rcases hg with hg | hg
    · rw [List.mem_singleton] at hg
      subst hg
      decide
    · cases hg
  · rfl

/-- The corpse used by the C4 counterexample (no killer tag). -/
def deadEnemy2 : Fighter :=
  { Fighter.new with
    id := "e", team := Team.B, dead := true, state := FState.dead }

/-- A scene holding only the corpse. -/
def deathScene2 : Scene :=
  { poolAvailable := [], activeFighters := [deadEnemy2],
    fighterMap := [("e", deadEnemy2)], seenDead := [], killsToday := [],
    pendingDespawns := [] }

/-- The scene after the corpse was processed and despawned and a fighter
re-using the id "e" (a player rejoining gets its fixed user id back) has
spawned and died again. -/
def reSpawnScene : Scene :=
  let base := despawnFighter (processDeaths deathScene2) "e"
  { base with
    activeFighters := [deadEnemy2], fighterMap := [("e", deadEnemy2)] }

/-- Counterexample to claim C4 as stated: the seen-death marker does not
persist merely "until the fighter despawns" — it survives `despawnFighter`
— and therefore the second death of a fighter re-using the id "e" is
processed zero times, not exactly once: the scan is a no-op, and the number
of scheduled despawns for "e" stays at 1 (the claim requires a second one,
and the dead re-spawned fighter is in fact never despawned). -/
theorem seen_death_marker_outlives_despawn :
    (despawnFighter (processDeaths deathScene2) "e").seenDead = ["e"] ∧
    processDeaths reSpawnScene = reSpawnScene ∧
    countId reSpawnScene.pendingDespawns "e" = 1 ∧
    countId (processDeaths reSpawnScene).pendingDespawns "e" = 1 :=
  ⟨rfl, rfl, rfl, rfl⟩

/-! ## Hearts and gifts — SceneBattle.handleWS (lines 335-349),
applyHearts (925-935), triggerGift (937-943) -/

/-- Character-wise: the first list is an initial segment of the second. -/
def leadsWith : List Char → List Char → Bool
  | [], _ => true
  | _ :: _, [] => false
  | p :: ps, b :: bs => p = b && leadsWith ps bs

/-- JavaScript `String.includes`: the pattern occurs contiguously. -/
def containsSeq (pat : List Char) : List Char → Bool
  | [] => pat.isEmpty
  | b :: bs => leadsWith pat (b :: bs) || containsSeq pat bs

/-- `s.includes(pat)` on strings. -/
def strIncludes (s pat : String) : Bool := containsSeq pat.data s.data

/-- The supporter-score ladder of the gift branch of `handleWS`
(SceneBattle.ts lines 342-345); the argument is the already-lowercased
`giftType`.  Note the final `: 1` default for a string matching no tier. -/
def giftScore (giftType : String) : ℚ :=
  if strIncludes giftType "tier4" then 10
  else if strIncludes giftType "tier3" then 6
  else if strIncludes giftType "tier2" then 3
  else if strIncludes giftType "tier1" then 1
  else 1

/-- `SceneBattle.triggerGift` (lines 937-943): dispatch to
`simulateGiftTier` on the first matching tier substring; an unmatched type
falls through every branch and triggers nothing.  Returns the dispatched
tier. -/
def triggerGift (t : String) : Option ℕ :=
  if strIncludes t "tier1" then some 1
  else if strIncludes t "tier2" then some 2
  else if strIncludes t "tier3" then some 3
  else if strIncludes t "tier4" then some 4
  else none

/-- The hearts branch of `handleWS` (line 336):
`heartsTotalMatch += Math.max(0, Number(count) || 0)` — `Number` on an
already-numeric payload is the identity, modelled on ℚ. -/
def handleHearts (heartsTotalMatch : ℚ) (count : ℚ) : ℚ :=
  heartsTotalMatch + max 0 count

/-- `supportersMatch.set(name, (supportersMatch.get(name) ?? 0) + score)`. -/
def bumpScore (m : List (String × ℚ)) (k : String) (v : ℚ) :
    List (String × ℚ) :=
  assocSet m k ((assocGet m k).getD 0 + v)

/-- The gift branch of `handleWS` (lines 339-349): compute the supporter
score, resolve the display name via
`(userId && nameByUserId.get(userId)) || (userId ?? 'Anonymous')` (empty
strings are falsy), update the supporter leaderboard, then dispatch
`triggerGift`. -/
def handleGiftMsg (supporters : List (String × ℚ))
    (names : List (String × String)) (giftType : String)
    (userId : Option String) : List (String × ℚ) × Option ℕ :=
  let nm := match userId with
    | none => "Anonymous"
    | some uid =>
      if uid = "" then ""
      else match assocGet names uid with
        | some n2 => if n2 = "" then uid else n2
        | none => uid
  (bumpScore supporters nm (giftScore giftType), triggerGift giftType)

/-- Counterexample to claim C9 as stated: a gift whose type string matches
no recognized tier is NOT defaulted to a baseline tier by the spawn
dispatch — `triggerGift` falls through every branch and triggers no unit
spawn — unlike an actual baseline-tier gift. -/
theorem unrecognized_gift_not_dispatched :
    triggerGift "boxofluck" = none ∧ triggerGift "rose tier1" = some 1 :=
  ⟨rfl, rfl⟩

/-- Claim C9 (amended): a hearts notification with a negative count is
clamped so the running hearts total is unchanged, and the total never
decreases for any count; a gift notification whose giftType matches no
recognized tier is defaulted to the baseline supporter score 1 (the same
score a tier1 gift earns) and still updates the supporter leaderboard — but
its spawn dispatch is a no-op rather than a baseline-tier spawn. -/
theorem hearts_clamped_gift_score_defaulted
    (total c : ℚ) (sup : List (String × ℚ)) (names : List (String × String))
    (g : String) (uid : Option String)
    (hun : strIncludes g "tier1" = false ∧ strIncludes g "tier2" = false ∧
           strIncludes g "tier3" = false ∧ strIncludes g "tier4" = false) :
    handleHearts total c = total + max 0 c ∧
    (c < 0 → handleHearts total c = total) ∧
    total ≤ handleHearts total c ∧
    giftScore g = 1 ∧ giftScore "tier1" = 1 ∧
    (∃ nm, (handleGiftMsg sup names g uid).1 = bumpScore sup nm 1) ∧
    (handleGiftMsg sup names g uid).2 = none := by
  obtain ⟨h1, h2, h3, h4⟩ := hun
  have hgs : giftScore g = 1 := by
    unfold giftScore
    rw [if_neg (by simp [h4]), if_neg (by simp [h3]), if_neg (by simp [h2]),
      if_neg (by simp [h1])]
  have htg : triggerGift g = none := by
    unfold triggerGift
    rw [if_neg (by simp [h1]), if_neg (by simp [h2]), if_neg (by simp [h3]),
      if_neg (by simp [h4])]
  refine ⟨rfl, ?_, ?_, hgs, rfl, ?_, htg⟩
  · intro hc
    unfold handleHearts
    rw [max_eq_left (le_of_lt hc), add_zero]
  · exact le_add_of_nonneg_right (le_max_left 0 c)
  · refine ⟨?_, ?_⟩
    · exact match uid with
        | none => "Anonymous"
        | some uid2 =>
          if uid2 = "" then ""
          else match assocGet names uid2 with
            | some n2 => if n2 = "" then uid2 else n2
            | none => uid2
    · unfold handleGiftMsg
      rw [hgs]

/-- Witness for C9 (amended) at a concrete input: the unmatched gift type
"boxofluck" earns the baseline score 1 and updates the leaderboard, and a
hearts count of −5 leaves the total unchanged. -/
theorem hearts_clamped_gift_score_defaulted_witness :
    (handleHearts 40 (-5) = 40 + max 0 (-5) ∧
     ((-5 : ℚ) < 0 → handleHearts 40 (-5) = 40) ∧
     (40 : ℚ) ≤ handleHearts 40 (-5) ∧
     giftScore "boxofluck" = 1 ∧ giftScore "tier1" = 1 ∧
     (∃ nm, (handleGiftMsg [] [] "boxofluck" (some "u1")).1 =
        bumpScore [] nm 1) ∧
     (handleGiftMsg [] [] "boxofluck" (some "u1")).2 = none) ∧
    handleHearts 40 (-5) = 40 := by
  have h := hearts_clamped_gift_score_defaulted 40 (-5) [] [] "boxofluck"
    (some "u1") ⟨rfl, rfl, rfl, rfl⟩
  exact ⟨h, h.2.1 (by norm_num)⟩

/-! ## Spatial hash — the SpatialHash section of
src/overlay/ui/NameplateFactory.ts (SpatialEntity, insert, remove,
queryRadius, clear) -/

/-- `SpatialEntity` (interface with id, x, y). -/
structure SEntity where
  id : String
  x : ℚ
  y : ℚ
  deriving DecidableEq, Repr

/-- The spatial hash state: cell size, grid buckets, and the entity → cell
map.  A key missing from the JavaScript `Map` is the empty bucket, so
`Map.delete` of an emptied bucket is invisible at this granularity.  The
JavaScript cell key is the string `"cx,cy"`, injective in the pair
(cx, cy) — integer reprs contain no comma — so keys are modelled as the
pair itself. -/
structure SpatialHash where
  cellSize : ℚ
  grid : ℤ × ℤ → List SEntity
  e2c : String → Option (ℤ × ℤ)

/-- A freshly constructed (or `clear`ed) hash. -/
def SpatialHash.empty (cellSize : ℚ) : SpatialHash :=
  { cellSize := cellSize, grid := fun _ => [], e2c := fun _ => none }

/-- `getCellKey(x, y) = (floor(x/cellSize), floor(y/cellSize))`. -/
def SpatialHash.getCellKey (h : SpatialHash) (x y : ℚ) : ℤ × ℤ :=
  (⌊x / h.cellSize⌋, ⌊y / h.cellSize⌋)

/-- `findIndex` + `splice(idx, 1)`: drop the first entity with the id. -/
def eraseFirstId (id : String) : List SEntity → List SEntity
  | [] => []
  | e :: rest => if e.id = id then rest else e :: eraseFirstId id rest

/-- `SpatialHash.insert`: when the entity has an old cell differing from its
current cell, remove it from the old bucket (first matching index); when it
is new or moved, push it onto its current cell's bucket and update the
entity → cell map. -/
def SpatialHash.insert (h : SpatialHash) (entity : SEntity) : SpatialHash :=
  let cellKey := h.getCellKey entity.x entity.y
  match h.e2c entity.id with
  | some oldCell =>
    if ¬(oldCell = cellKey) then
      { h with
        grid := fun k =>
          if k = oldCell then eraseFirstId entity.id (h.grid oldCell)
          else if k = cellKey then h.grid cellKey ++ [entity]
          else h.grid k,
        e2c := fun i => if i = entity.id then some cellKey else h.e2c i }
    else h
  | none =>
    { h with
      grid := fun k =>
        if k = cellKey then h.grid cellKey ++ [entity] else h.grid k,
      e2c := fun i => if i = entity.id then some cellKey else h.e2c i }

/-- The integer interval [a, b] as a list, modelling
`for (let d = a; d <= b; d++)`. -/
def intRange (a b : ℤ) : List ℤ :=
  (List.range (b + 1 - a).toNat).map (fun (i : ℕ) => a + (i : ℤ))

/-- `SpatialHash.queryRadius`: visit every cell within
`ceil(radius/cellSize)` of the query point's cell (dy is the inner loop),
keeping the entities of those buckets whose true squared distance is at most
radius².  The reusable result buffer is the returned list. -/
def SpatialHash.queryRadius (h : SpatialHash) (x y radius : ℚ) : List SEntity :=
  let radiusSq := radius * radius
  let cellRadius : ℤ := ⌈radius / h.cellSize⌉
  let centerCx : ℤ := ⌊x / h.cellSize⌋
  let centerCy : ℤ := ⌊y / h.cellSize⌋
  ((intRange (-cellRadius) cellRadius).flatMap (fun dx =>
    (intRange (-cellRadius) cellRadius).map (fun dy =>
      (centerCx + dx, centerCy + dy)))).flatMap (fun k =>
    (h.grid k).filter (fun e =>
      (e.x - x) * (e.x - x) + (e.y - y) * (e.y - y) ≤ radiusSq))

/-- Inserting a set of entities into a cleared hash, one `insert` each, as
the per-tick rebuild in `fixedUpdate` does. -/
def insertAll (es : List SEntity) (h : SpatialHash) : SpatialHash :=
  es.foldl SpatialHash.insert h

/-- The cell an entity at its current coordinates belongs to. -/
def cellOf (cs : ℚ) (e : SEntity) : ℤ × ℤ := (⌊e.x / cs⌋, ⌊e.y / cs⌋)

theorem mem_intRange (a b z : ℤ) : z ∈ intRange a b ↔ a ≤ z ∧ z ≤ b := by
  unfold intRange
  constructor
  · intro h
    obtain ⟨i, hi, hz⟩ := List.mem_map.mp h
    rw [List.mem_range] at hi
    omega
  · rintro ⟨h1, h2⟩
    refine List.mem_map.mpr ⟨(z - a).toNat, ?_, ?_⟩
    · rw [List.mem_range]; omega
    · omega

theorem intRange_nodup (a b : ℤ) : (intRange a b).Nodup := by
  unfold intRange
  exact List.Nodup.map (fun i j hij => by omega) (List.nodup_range _)

theorem insert_fresh (cs : ℚ) (h : SpatialHash) (e : SEntity)
    (done : List SEntity) (hcs : h.cellSize = cs)
    (hgrid : ∀ k, h.grid k = done.filter (fun e2 => cellOf cs e2 = k))
    (he2c : ∀ i, h.e2c i = none ↔ (∀ e2 ∈ done, ¬(e2.id = i)))
    (hfresh : ∀ e2 ∈ done, ¬(e2.id = e.id)) :
    (h.insert e).cellSize = cs ∧
    (∀ k, (h.insert e).grid k =
      (done ++ [e]).filter (fun e2 => cellOf cs e2 = k)) ∧
    (∀ i, (h.insert e).e2c i = none ↔ (∀ e2 ∈ done ++ [e], ¬(e2.id = i))) := by
  have hnone : h.e2c e.id = none := (he2c e.id).mpr hfresh
  have hck : h.getCellKey e.x e.y = cellOf cs e := by
    unfold SpatialHash.getCellKey cellOf
    rw [hcs]
  unfold SpatialHash.insert
  rw [hnone]
  dsimp only
  rw [hck]
  refine ⟨hcs, ?_, ?_⟩
  · intro k
    by_cases hk : k = cellOf cs e
    · subst hk
      rw [if_pos rfl, hgrid, List.filter_append]
      simp
    · rw [if_neg hk, hgrid, List.filter_append]
      have hce : ¬(cellOf cs e = k) := fun hh => hk hh.symm
      simp [hce]
  · intro i
    by_cases hi : i = e.id
    · subst hi
      rw [if_pos rfl]
      constructor
      · intro hc
        exact Option.noConfusion hc
      · intro hall
        exact absurd rfl (hall e (by simp))
    · rw [if_neg hi, he2c i]
      constructor
      · intro hall e2 he2
        rcases List.mem_append.mp he2 with h2 | h2
        · exact hall e2 h2
        · rw [List.mem_singleton] at h2
          subst h2
          exact fun hpe => hi hpe.symm
      · intro hall e2 he2
        exact hall e2 (List.mem_append_left _ he2)

theorem insertAll_inv (cs : ℚ) (es : List SEntity) :
    ∀ (done : List SEntity) (h : SpatialHash),
    h.cellSize = cs →
    (∀ k, h.grid k = done.filter (fun e2 => cellOf cs e2 = k)) →
    (∀ i, h.e2c i = none ↔ (∀ e2 ∈ done, ¬(e2.id = i))) →
    (∀ e2 ∈ done, ∀ e3 ∈ es, ¬(e2.id = e3.id)) →
    es.Pairwise (fun a b => ¬(a.id = b.id)) →
    (insertAll es h).cellSize = cs ∧
    (∀ k, (insertAll es h).grid k =
      (done ++ es).filter (fun e2 => cellOf cs e2 = k)) := by
  induction es with
  | nil =>
    intro done h h1 h2 _ _ _
    exact ⟨h1, fun k => by simpa using h2 k⟩
  | cons e rest ih =>
    intro done h h1 h2 h3 hcross hpw
    have hfresh : ∀ e2 ∈ done, ¬(e2.id = e.id) :=
      fun e2 he2 => hcross e2 he2 e (List.mem_cons_self _ _)
    obtain ⟨g1, g2, g3⟩ := insert_fresh cs h e done h1 h2 h3 hfresh
    have hcross2 : ∀ e2 ∈ done ++ [e], ∀ e3 ∈ rest, ¬(e2.id = e3.id) := by
      intro e2 he2 e3 he3
      rcases List.mem_append.mp he2 with h4 | h4
      · exact hcross e2 h4 e3 (List.mem_cons_of_mem _ he3)
      · rw [List.mem_singleton] at h4
        subst h4
        exact (List.pairwise_cons.mp hpw).1 e3 he3
    have hrec := ih (done ++ [e]) (h.insert e) g1 g2 g3 hcross2
      (List.pairwise_cons.mp hpw).2
    refine ⟨hrec.1, fun k => ?_⟩
    have := hrec.2 k
    simpa [List.append_assoc] using this

/-- One side of the geometric completeness argument: an offset `d` with
`|d| ≤ r` moves the floor-cell index by at most `ceil(r/cs)`. -/
theorem cell_bound (cs x r d : ℚ) (hcs : 0 < cs) (h1 : -r ≤ d) (h2 : d ≤ r) :
    -⌈r / cs⌉ ≤ ⌊(x + d) / cs⌋ - ⌊x / cs⌋ ∧
    ⌊(x + d) / cs⌋ - ⌊x / cs⌋ ≤ ⌈r / cs⌉ := by
  have hdiv1 : d / cs ≤ r / cs := by gcongr
  have hdiv2 : -(r / cs) ≤ d / cs := by
    rw [← neg_div]
    gcongr
  have hceil : r / cs ≤ (⌈r / cs⌉ : ℚ) := Int.le_ceil _
  have hfl : ((⌊x / cs⌋ : ℤ) : ℚ) ≤ x / cs := Int.floor_le _
  have hfl2 : x / cs < (⌊x / cs⌋ : ℚ) + 1 := Int.lt_floor_add_one _
  constructor
  · have hlow : ((⌊x / cs⌋ - ⌈r / cs⌉ : ℤ) : ℚ) ≤ (x + d) / cs := by
      push_cast
      rw [add_div]
      linarith
    have := Int.le_floor.mpr hlow
    omega
  · have hup : (x + d) / cs < ((⌊x / cs⌋ + ⌈r / cs⌉ + 1 : ℤ) : ℚ) := by
      push_cast
      rw [add_div]
      linarith
    have := Int.floor_lt.mpr hup
    omega

theorem cellsList_nodup (cr ccx ccy : ℤ) :
    ((intRange (-cr) cr).flatMap (fun dx =>
      (intRange (-cr) cr).map (fun dy => (ccx + dx, ccy + dy)))).Nodup := by
  rw [List.nodup_flatMap]
  constructor
  · intro dx _
    exact List.Nodup.map (fun i j hij => by
      have := congrArg Prod.snd hij
      dsimp only at this
      omega) (intRange_nodup _ _)
  · have hpw : (intRange (-cr) cr).Pairwise (fun a b => a ≠ b) := intRange_nodup _ _
    refine hpw.imp ?_
    intro a b hab
    intro p hp1 hp2
    obtain ⟨dy1, _, he1⟩ := List.mem_map.mp hp1
    obtain ⟨dy2, _, he2⟩ := List.mem_map.mp hp2
    apply hab
    have := congrArg Prod.fst (he1.trans he2.symm)
    dsimp only at this
    omega


/-- C5: after inserting a duplicate-free set of entities into a fresh spatial
hash at their current coordinates, `queryRadius(x, y, r)` returns exactly
(each exactly once) the inserted entities whose Euclidean distance to
`(x, y)` is at most `r`, for any positive cell size. -/
theorem queryRadius_returns_exactly_in_range
    (cs x y r : ℚ) (es : List SEntity)
    (hcs : 0 < cs) (hr : 0 ≤ r) (hids : (es.map SEntity.id).Nodup) :
    (∀ e, e ∈ (insertAll es (SpatialHash.empty cs)).queryRadius x y r ↔
        e ∈ es ∧ sqrtLE ((e.x - x) ^ 2 + (e.y - y) ^ 2) r) ∧
    ((insertAll es (SpatialHash.empty cs)).queryRadius x y r).Nodup := by
  have hpw : es.Pairwise (fun a b => ¬(a.id = b.id)) := by
    have := (List.pairwise_map.mp hids)
    exact this.imp (fun hne => hne)
  obtain ⟨hcsz, hgrid0⟩ := insertAll_inv cs es [] (SpatialHash.empty cs) rfl
    (fun k => rfl)
    (fun i => ⟨fun _ => by intro e2 he2; exact absurd he2 (List.not_mem_nil _), fun _ => rfl⟩)
    (fun e2 he2 => absurd he2 (List.not_mem_nil _))
    hpw
  have hgrid : ∀ k, (insertAll es (SpatialHash.empty cs)).grid k =
      es.filter (fun e2 => cellOf cs e2 = k) := by
    intro k
    have := hgrid0 k
    rwa [List.nil_append] at this
  have hq : (insertAll es (SpatialHash.empty cs)).queryRadius x y r =
      ((intRange (-(⌈r / cs⌉)) ⌈r / cs⌉).flatMap (fun dx =>
        (intRange (-(⌈r / cs⌉)) ⌈r / cs⌉).map (fun dy =>
          (⌊x / cs⌋ + dx, ⌊y / cs⌋ + dy)))).flatMap (fun k =>
        ((insertAll es (SpatialHash.empty cs)).grid k).filter (fun e =>
          (e.x - x) * (e.x - x) + (e.y - y) * (e.y - y) ≤ r * r)) := by
    unfold SpatialHash.queryRadius
    rw [hcsz]
  constructor
  · intro e
    rw [hq]
    simp only [List.mem_flatMap, List.mem_filter, decide_eq_true_eq, hgrid]
    constructor
    · rintro ⟨k, _, ⟨hmem, _⟩, hdist⟩
      refine ⟨hmem, hr, ?_⟩
      rw [pow_two, pow_two, pow_two]
      linarith
    · rintro ⟨hmem, _, hdist⟩
      rw [pow_two, pow_two, pow_two] at hdist
      have hx2 : (e.x - x) * (e.x - x) ≤ r * r := by nlinarith [mul_self_nonneg (e.y - y)]
      have hy2 : (e.y - y) * (e.y - y) ≤ r * r := by nlinarith [mul_self_nonneg (e.x - x)]
      have hxl : -r ≤ e.x - x := by nlinarith
      have hxu : e.x - x ≤ r := by nlinarith
      have hyl : -r ≤ e.y - y := by nlinarith
      have hyu : e.y - y ≤ r := by nlinarith
      have hbx := cell_bound cs x r (e.x - x) hcs hxl hxu
      have hby := cell_bound cs y r (e.y - y) hcs hyl hyu
      have hex : x + (e.x - x) = e.x := by ring
      have hey : y + (e.y - y) = e.y := by ring
      rw [hex] at hbx
      rw [hey] at hby
      refine ⟨cellOf cs e, ?_, ⟨hmem, rfl⟩, by linarith⟩
      simp only [cellOf]
      refine ⟨⌊e.x / cs⌋ - ⌊x / cs⌋, (mem_intRange _ _ _).mpr (by omega),
        List.mem_map.mpr ⟨⌊e.y / cs⌋ - ⌊y / cs⌋,
          (mem_intRange _ _ _).mpr (by omega), ?_⟩⟩
      rw [Prod.mk.injEq]
      omega
  · rw [hq]
    rw [List.nodup_flatMap]
    have hes : es.Nodup := hids.of_map _
    constructor
    · intro k _
      rw [hgrid]
      exact (hes.filter _).filter _
    · refine (cellsList_nodup _ _ _).imp ?_
      intro a b hab p hp1 hp2
      dsimp only at hp1 hp2
      rw [hgrid] at hp1 hp2
      have h1 := (List.mem_filter.mp (List.mem_filter.mp hp1).1).2
      have h2 := (List.mem_filter.mp (List.mem_filter.mp hp2).1).2
      rw [decide_eq_true_eq] at h1 h2
      exact hab (h1 ▸ h2 ▸ rfl)


/-- Concrete entity set exercising the spatial-hash query. -/
def qrEntities : List SEntity :=
  [⟨"a", 30, 40⟩, ⟨"b", 60, 0⟩, ⟨"c", -10, -10⟩]

theorem queryRadius_returns_exactly_in_range_witness :
    (0 : ℚ) < 64 ∧ (0 : ℚ) ≤ 50 ∧ (qrEntities.map SEntity.id).Nodup ∧
    (⟨"a", 30, 40⟩ : SEntity) ∈
      (insertAll qrEntities (SpatialHash.empty 64)).queryRadius 0 0 50 ∧
    (⟨"b", 60, 0⟩ : SEntity) ∉
      (insertAll qrEntities (SpatialHash.empty 64)).queryRadius 0 0 50 := by
  have h := queryRadius_returns_exactly_in_range 64 0 0 50 qrEntities
    (by norm_num) (by norm_num) (by decide)
  refine ⟨by norm_num, by norm_num, by decide, ?_, ?_⟩
  · refine (h.1 _).mpr ⟨by simp [qrEntities], ?_, ?_⟩
    · norm_num
    · norm_num
  · intro hb
    have h2 := ((h.1 _).mp hb).2.2
    norm_num at h2

end AGT
